import Mathlib

/-!
# Asynchronous greeter: call-state machines and event loops

A shallow embedding of `examples/cpp/helloworld2/greeter_async_server.cc` and
`examples/cpp/helloworld2/greeter_async_client.cc`.

* A call object is a record of the fields of the C++ class; `Proceed` is a function from
  the object (and its address `this`) to the updated object and the list of effects it
  performs, in program order: operations handed to the gRPC runtime, `new`, `delete this`,
  and (client) the line printed by `PrintReply`.
* The server and the client own a heap of call objects indexed by address.  `new` hands out
  the address `nextAddr`, which is never reused.
* The gRPC runtime is not part of the two files.  Its completion queue is an input: the
  event loops take the list of events that `Next` returns.
* Diagnostic `std::cout` lines other than `PrintReply` are not modelled.
-/

namespace Greeter

/-- The address of an object; used as the completion-queue tag (`void*`). -/
abbrev Tag := Nat

/-- The text `operator<<` produces for a pointer: `0x` followed by the address in
lower-case hexadecimal (the glibc rendering of `%p`). -/
def ptrToString (p : Tag) : String :=
  "0x" ++ String.mk (Nat.toDigits 16 p)

/-- The part of `grpc::Status` the programs look at. -/
inductive Status where
  | OK
  | CANCELLED
  deriving DecidableEq, Repr

/-- Conversion of an `int` to `size_t` (64 bit), as performed when `count_` is compared
with `messages_.size()` and passed to `messages_.at`. -/
def toSizeT (i : Int) : Nat :=
  (i % (2 ^ 64 : Int)).toNat

/-! ## Server: `greeter_async_server.cc` -/

/-- The member `enum CallStatus { CREATE, PROCESS, FINISH }` of `CallDataBase`. -/
inductive CallStatus where
  | CREATE
  | PROCESS
  | FINISH
  deriving DecidableEq, Repr

/-- Position of a `CallStatus` in the enumeration. -/
def CallStatus.toNat : CallStatus → Nat
  | .CREATE => 0
  | .PROCESS => 1
  | .FINISH => 2

/-- Effects of a server-side `Proceed`, in program order. -/
inductive Action where
  /-- `service_->RequestSayHello(&ctx_, &request_, &responder_, cq_, cq_, tag)` -/
  | RequestSayHello (tag : Tag)
  /-- `service_->RequestSayHelloStreamReply(&ctx_, &request_, &responder_, cq_, cq_, tag)` -/
  | RequestSayHelloStreamReply (tag : Tag)
  /-- `ServerAsyncResponseWriter::Finish(reply_, status, tag)` -/
  | Finish (reply : String) (status : Status) (tag : Tag)
  /-- `ServerAsyncWriter::Write(reply_, tag)` -/
  | Write (reply : String) (tag : Tag)
  /-- `ServerAsyncWriter::Finish(status, tag)` -/
  | FinishWriter (status : Status) (tag : Tag)
  /-- `new CallData(service_, cq_)` -/
  | NewCallData
  /-- `new CallDataWriter(service_, cq_)` -/
  | NewCallDataWriter
  /-- `delete this` -/
  | Delete (this : Tag)
  deriving DecidableEq, Repr

/-- The tag of an operation handed to the runtime; `none` for `new` and `delete`. -/
def Action.tag? : Action → Option Tag
  | .RequestSayHello t => some t
  | .RequestSayHelloStreamReply t => some t
  | .Finish _ _ t => some t
  | .Write _ t => some t
  | .FinishWriter _ t => some t
  | .NewCallData => none
  | .NewCallDataWriter => none
  | .Delete _ => none

/-- An operation handed to the runtime, which answers it with one completion event. -/
def Action.isOp (a : Action) : Bool :=
  a.tag?.isSome

/-- A finish operation of either responder kind. -/
def Action.isFinish : Action → Bool
  | .Finish _ _ _ => true
  | .FinishWriter _ _ => true
  | _ => false

/-- A write operation. -/
def Action.isWrite : Action → Bool
  | .Write _ _ => true
  | _ => false

/-- The part of `grpc::ServerContext` a call state could look at: what `IsCancelled()`
returns.  The runtime sets it; the call states never write it. -/
structure ServerContext where
  cancelled : Bool
  deriving DecidableEq, Repr

/-- The data members of `CallDataBase`: `ctx_`, `request_` (its `name()`), `reply_` (its
`message()`), `status_` and `prefix_`.  The handles `service_` and `cq_` are the same for
all call objects and are left out. -/
structure CallDataBase where
  ctx_ : ServerContext
  request_ : String
  reply_ : String
  status_ : CallStatus
  prefix_ : String
  deriving DecidableEq, Repr

/-- The constructor `CallDataBase(service, cq)`: `status_(CREATE), prefix_("Hello")`; the
other members are default-constructed. -/
def CallDataBase.init : CallDataBase :=
  { ctx_ := { cancelled := false }, request_ := "", reply_ := "", status_ := .CREATE,
    prefix_ := "Hello" }

/-- The class `CallData`: the unary call state. -/
structure CallData extends CallDataBase where
  deriving DecidableEq, Repr

/-- The class `CallDataWriter`: the server-streaming call state.  `count_` is an `int`; it
starts at 0 and is only ever incremented, by one per write, so the increment is modelled
without overflow. -/
structure CallDataWriter extends CallDataBase where
  count_ : Int
  new_responder_created_ : Bool
  messages_ : List String
  deriving DecidableEq, Repr

/-- `CallData::Proceed`.  The `bool` parameter is unnamed in the source and not used.  The
last branch is the `else` of the source; its `GPR_ASSERT(status_ == FINISH)` holds there
because the enumeration has no fourth value. -/
def CallData.Proceed (this : Tag) (_ok : Bool) (c : CallData) : CallData × List Action :=
  match c.status_ with
  | .CREATE =>
    ({ c with status_ := .PROCESS }, [.RequestSayHello this])
  | .PROCESS =>
    ({ c with reply_ := c.prefix_ ++ c.request_, status_ := .FINISH },
      [.NewCallData, .Finish (c.prefix_ ++ c.request_) .OK this])
  | .FINISH =>
    (c, [.Delete this])

/-- The member initialisers of the constructor `CallData(service, cq)`. -/
def CallData.init : CallData :=
  { toCallDataBase := CallDataBase.init }

/-- The constructor `CallData(service, cq)`: initialise, then `Proceed()`. -/
def CallData.ctor (this : Tag) : CallData × List Action :=
  CallData.Proceed this true CallData.init

/-- `CallDataWriter::InitMessages`. -/
def CallDataWriter.InitMessages (this : Tag) (name : String) (w : CallDataWriter) :
    CallDataWriter :=
  { w with messages_ := w.messages_ ++
      [w.prefix_ ++ name ++ "!",
       "How are you doing?",
       "How can I assist you today?",
       "I'm a server ID " ++ ptrToString this] }

/-- `std::vector::at`: `none` stands for the `std::out_of_range` exception. -/
def vectorAt (v : List String) (i : Nat) : Option String :=
  v[i]?

/-- `CallDataWriter::Proceed`.  The `bool` parameter is unnamed in the source and not used.
The result is `none` when `messages_.at` throws. -/
def CallDataWriter.Proceed (this : Tag) (_ok : Bool) (w : CallDataWriter) :
    Option (CallDataWriter × List Action) :=
  match w.status_ with
  | .CREATE =>
    some ({ w with status_ := .PROCESS }, [.RequestSayHelloStreamReply this])
  | .PROCESS =>
    let w1 : CallDataWriter :=
      if w.new_responder_created_ then w else { w with new_responder_created_ := true }
    let spawn : List Action :=
      if w.new_responder_created_ then [] else [.NewCallDataWriter]
    let w2 : CallDataWriter :=
      if w1.count_ = 0 then w1.InitMessages this w1.request_ else w1
    if toSizeT w2.count_ ≥ w2.messages_.length then
      some ({ w2 with status_ := .FINISH }, spawn ++ [.FinishWriter .OK this])
    else
      match vectorAt w2.messages_ (toSizeT w2.count_) with
      | none => none
      | some m =>
        some ({ w2 with reply_ := m, count_ := w2.count_ + 1 }, spawn ++ [.Write m this])
  | .FINISH =>
    some (w, [.Delete this])

/-- The member initialisers of the constructor `CallDataWriter(service, cq)`:
`count_(0), new_responder_created_(false)` and an empty `messages_`. -/
def CallDataWriter.init : CallDataWriter :=
  { toCallDataBase := CallDataBase.init, count_ := 0, new_responder_created_ := false,
    messages_ := [] }

/-- The constructor `CallDataWriter(service, cq)`: initialise, then `Proceed()`. -/
def CallDataWriter.ctor (this : Tag) : Option (CallDataWriter × List Action) :=
  CallDataWriter.Proceed this true CallDataWriter.init

/-- Events handed one after another to the `CallDataWriter` at address `this`: the list of
`ok` flags.  Returns the final object and everything it did, in order.  The run ends with
the event on which the object deletes itself. -/
def CallDataWriter.drive (this : Tag) :
    CallDataWriter → List Bool → Option (CallDataWriter × List Action)
  | w, [] => some (w, [])
  | w, ok :: oks =>
    match w.Proceed this ok with
    | none => none
    | some (w1, acts) =>
      if Action.Delete this ∈ acts then some (w1, acts)
      else (CallDataWriter.drive this w1 oks).map fun r => (r.1, acts ++ r.2)

/-- A call object on the server heap: what a `CallDataBase*` points to. -/
inductive CallObj where
  | callData (c : CallData)
  | callDataWriter (w : CallDataWriter)
  deriving DecidableEq, Repr

/-- The virtual call `static_cast<CallDataBase*>(tag)->Proceed(ok)`. -/
def CallObj.Proceed (this : Tag) (ok : Bool) : CallObj → Option (CallObj × List Action)
  | .callData c => some (.callData (c.Proceed this ok).1, (c.Proceed this ok).2)
  | .callDataWriter w => (w.Proceed this ok).map fun r => (.callDataWriter r.1, r.2)

/-- The field `status_` of a call object. -/
def CallObj.status_ : CallObj → CallStatus
  | .callData c => c.status_
  | .callDataWriter w => w.status_

/-- The call object with `request_.name()` replaced. -/
def CallObj.setRequest (name : String) : CallObj → CallObj
  | .callData c => .callData { c with request_ := name }
  | .callDataWriter w => .callDataWriter { w with request_ := name }

/-- Ways in which an event loop stops other than by returning. -/
inductive Fault where
  /-- `GPR_ASSERT(cq_->Next(&tag, &ok))` fails: the queue is shut down. -/
  | nextFailed
  /-- `GPR_ASSERT(ok)` fails. -/
  | notOk
  /-- `std::out_of_range` leaves `Proceed`. -/
  | outOfRange
  /-- The tag is not the address of a live call object. -/
  | badTag
  /-- The event answers no outstanding operation; the queue never returns such an event. -/
  | noSuchOperation
  deriving DecidableEq, Repr

/-- The server: the heap of call objects, the allocator, the operations handed to the
runtime and not yet answered (`pending`), and the record of everything done so far
(`trace`: operations and deletions, in order). -/
structure ServerImpl where
  heap : Tag → Option CallObj
  nextAddr : Tag
  pending : List Action
  trace : List Action

/-- Carry out one effect other than `new`: an operation becomes outstanding, a deletion
removes the object from the heap. -/
def ServerImpl.perform (sv : ServerImpl) (a : Action) : ServerImpl :=
  match a with
  | .Delete t =>
    { sv with heap := Function.update sv.heap t none, trace := sv.trace ++ [a] }
  | .NewCallData => sv
  | .NewCallDataWriter => sv
  | _ => { sv with pending := sv.pending ++ [a], trace := sv.trace ++ [a] }

/-- Place a constructed object at the next free address and carry out what its
constructor did.  A constructor only registers the object as acceptor (see
`callData_ctor_eq` and `writer_ctor_eq`), so no `new` occurs among its effects. -/
def ServerImpl.alloc (sv : ServerImpl) (o : CallObj) (acts : List Action) : ServerImpl :=
  acts.foldl ServerImpl.perform
    { sv with heap := Function.update sv.heap sv.nextAddr (some o),
              nextAddr := sv.nextAddr + 1 }

/-- The expression `new CallData(service_, cq_)`. -/
def ServerImpl.newCallData (sv : ServerImpl) : ServerImpl :=
  sv.alloc (.callData (CallData.ctor sv.nextAddr).1) (CallData.ctor sv.nextAddr).2

/-- The expression `new CallDataWriter(service_, cq_)`. -/
def ServerImpl.newCallDataWriter (sv : ServerImpl) : Except Fault ServerImpl :=
  match CallDataWriter.ctor sv.nextAddr with
  | none => .error .outOfRange
  | some r => .ok (sv.alloc (.callDataWriter r.1) r.2)

/-- Carry out the effects of one `Proceed`, in order. -/
def ServerImpl.exec : ServerImpl → List Action → Except Fault ServerImpl
  | sv, [] => .ok sv
  | sv, .NewCallData :: as => ServerImpl.exec sv.newCallData as
  | sv, .NewCallDataWriter :: as =>
    match sv.newCallDataWriter with
    | .error f => .error f
    | .ok sv1 => ServerImpl.exec sv1 as
  | sv, a :: as => ServerImpl.exec (sv.perform a) as

/-- The statement `static_cast<CallDataBase*>(tag)->Proceed(ok)`. -/
def ServerImpl.dispatch (sv : ServerImpl) (tag : Tag) (ok : Bool) :
    Except Fault ServerImpl :=
  match sv.heap tag with
  | none => .error .badTag
  | some o =>
    match o.Proceed tag ok with
    | none => .error .outOfRange
    | some r =>
      ServerImpl.exec { sv with heap := Function.update sv.heap tag (some r.1) } r.2

/-- One result of `cq_->Next(&tag, &ok)`: the tag and the flag, and, for the runtime side
of the model, the request name that arrived when the answered operation is a `Request…`. -/
structure Completion where
  tag : Tag
  ok : Bool
  name : String
  deriving DecidableEq, Repr

/-- The outstanding operation an event with this tag answers. -/
def ServerImpl.outstanding (sv : ServerImpl) (tag : Tag) : Option Action :=
  sv.pending.find? fun a => a.tag? = some tag

/-- Modelled from the spec: the runtime side of `cq_->Next` (the completion queue is
library code outside the two example files).  Every submitted operation yields exactly one
event carrying its tag; the event of an acceptor registration arrives with a new call,
whose request the runtime has stored in `request_`. -/
def ServerImpl.next (sv : ServerImpl) (e : Completion) : Except Fault ServerImpl :=
  match sv.outstanding e.tag with
  | none => .error .noSuchOperation
  | some a =>
    let heap1 : Tag → Option CallObj :=
      match a with
      | .RequestSayHello _ =>
        if e.ok then
          Function.update sv.heap e.tag ((sv.heap e.tag).map (CallObj.setRequest e.name))
        else sv.heap
      | .RequestSayHelloStreamReply _ =>
        if e.ok then
          Function.update sv.heap e.tag ((sv.heap e.tag).map (CallObj.setRequest e.name))
        else sv.heap
      | _ => sv.heap
    .ok { sv with heap := heap1, pending := sv.pending.erase a }

/-- One pass through the body of the `while (true)` loop of `HandleRpcs`, `Next` returning
the event `e`. -/
def ServerImpl.iteration (sv : ServerImpl) (e : Completion) : Except Fault ServerImpl :=
  match sv.next e with
  | .error f => .error f
  | .ok sv1 =>
    if e.ok then sv1.dispatch e.tag e.ok
    else .error .notOk

/-- The passes of the loop for the events `Next` returns, in order. -/
def ServerImpl.loop : ServerImpl → List Completion → Except Fault ServerImpl
  | sv, [] => .ok sv
  | sv, e :: es =>
    match sv.iteration e with
    | .error f => .error f
    | .ok sv1 => ServerImpl.loop sv1 es

/-- The server before `HandleRpcs`: no call object; addresses start at 1. -/
def ServerImpl.init : ServerImpl :=
  { heap := fun _ => none, nextAddr := 1, pending := [], trace := [] }

/-- The first two statements of `HandleRpcs`: `new CallData`, `new CallDataWriter`. -/
def ServerImpl.start : Except Fault ServerImpl :=
  ServerImpl.init.newCallData.newCallDataWriter

/-- The state of `HandleRpcs` after `Next` has returned the events `es`. -/
def ServerImpl.run (es : List Completion) : Except Fault ServerImpl :=
  match ServerImpl.start with
  | .error f => .error f
  | .ok sv => sv.loop es

/-- `ServerImpl::HandleRpcs` on a queue that returns the events `es` and is then shut down.
The loop has no exit: the function ends in a fault. -/
def ServerImpl.HandleRpcs (es : List Completion) : Fault :=
  match ServerImpl.run es with
  | .error f => f
  | .ok _ => .nextFailed

/-- The call object at `t` is a `CallData`. -/
def ServerImpl.isCallData (sv : ServerImpl) (t : Tag) : Prop :=
  ∃ c, sv.heap t = some (.callData c)

/-- The call object at `t` is a `CallDataWriter`. -/
def ServerImpl.isCallDataWriter (sv : ServerImpl) (t : Tag) : Prop :=
  ∃ w, sv.heap t = some (.callDataWriter w)

/-! ## Client: `greeter_async_client.cc` -/

/-- The member `enum CallStatus {PROCESS, FINISH, DESTROY}` of `ClientAsyncCall`. -/
inductive ClientCallStatus where
  | PROCESS
  | FINISH
  | DESTROY
  deriving DecidableEq, Repr

/-- Effects of the client code, in program order.  `call` is the call object whose
`responder` is used, `tag` the tag given to the runtime. -/
inductive ClientAction where
  /-- `stub_->PrepareAsyncSayHello(&call->context, request, &cq_)` -/
  | PrepareAsyncSayHello (call : Tag) (name : String)
  /-- `stub_->PrepareAsyncSayHelloStreamReply(&call->context, request, &cq_)` -/
  | PrepareAsyncSayHelloStreamReply (call : Tag) (name : String)
  /-- `ClientAsyncResponseReader::StartCall()` -/
  | StartCall (call : Tag)
  /-- `ClientAsyncReader::StartCall(tag)` -/
  | StartCallTagged (call : Tag) (tag : Tag)
  /-- `ClientAsyncReader::Read(&reply, tag)` -/
  | Read (call : Tag) (tag : Tag)
  /-- `responder->Finish(…, tag)` of either responder kind -/
  | Finish (call : Tag) (tag : Tag)
  /-- The line `PrintReply` writes: client type and `reply.message()`. -/
  | PrintReply (client_type : String) (message : String)
  /-- `delete this` -/
  | Delete (this : Tag)
  deriving DecidableEq, Repr

/-- A finish operation. -/
def ClientAction.isFinish : ClientAction → Bool
  | .Finish _ _ => true
  | _ => false

/-- A read operation. -/
def ClientAction.isRead : ClientAction → Bool
  | .Read _ _ => true
  | _ => false

/-- An operation handed to the runtime that comes back as an event. -/
def ClientAction.isOp : ClientAction → Bool
  | .StartCallTagged _ _ => true
  | .Read _ _ => true
  | .Finish _ _ => true
  | _ => false

/-- The message surfaced by a `PrintReply` line. -/
def ClientAction.printed? : ClientAction → Option String
  | .PrintReply _ m => some m
  | _ => none

/-- The fields of `ClientAsyncCall` the code reads or writes: `callStatus`, `client_type`,
`reply.message()` and `status`. -/
structure ClientAsyncCall where
  callStatus : ClientCallStatus
  client_type : String
  reply : String
  status : Status
  deriving DecidableEq, Repr

/-- The constructor `ClientAsyncCall(type)`: `callStatus(PROCESS), client_type(type)`; the
reply is empty and the status is the default `Status`, which is OK. -/
def ClientAsyncCall.init (type : String) : ClientAsyncCall :=
  { callStatus := .PROCESS, client_type := type, reply := "", status := .OK }

/-- `ClientAsyncCall::PrintReply`. -/
def ClientAsyncCall.PrintReply (c : ClientAsyncCall) : ClientAction :=
  .PrintReply c.client_type c.reply

/-- The class `RPCClientCall`. -/
structure RPCClientCall extends ClientAsyncCall where
  deriving DecidableEq, Repr

/-- The class `ReadStreamClientCall`. -/
structure ReadStreamClientCall extends ClientAsyncCall where
  deriving DecidableEq, Repr

/-- The constructor `RPCClientCall(request, cq_, stub_)`. -/
def RPCClientCall.init : RPCClientCall :=
  { toClientAsyncCall := ClientAsyncCall.init "Async RPC Client" }

/-- The constructor `ReadStreamClientCall(request, cq_, stub_)`. -/
def ReadStreamClientCall.init : ReadStreamClientCall :=
  { toClientAsyncCall := ClientAsyncCall.init "Read Stream Client" }

/-- `RPCClientCall::Proceed`. -/
def RPCClientCall.Proceed (this : Tag) (_ok : Bool) (c : RPCClientCall) :
    RPCClientCall × List ClientAction :=
  if c.callStatus = .PROCESS then
    (c, (if c.status = .OK then [c.PrintReply] else []) ++ [.Delete this])
  else
    (c, [])

/-- `ReadStreamClientCall::Proceed`. -/
def ReadStreamClientCall.Proceed (this : Tag) (ok : Bool) (c : ReadStreamClientCall) :
    ReadStreamClientCall × List ClientAction :=
  if c.callStatus = .PROCESS then
    if !ok then
      ({ c with callStatus := .FINISH }, [.Finish this this])
    else
      (c, [.Read this this, c.PrintReply])
  else if c.callStatus = .FINISH then
    (c, [.Delete this])
  else
    (c, [])

/-- A call object on the client heap: what a `ClientAsyncCall*` points to. -/
inductive ClientObj where
  | rpc (c : RPCClientCall)
  | readStream (c : ReadStreamClientCall)
  deriving DecidableEq, Repr

/-- The virtual call `call->Proceed(ok)`. -/
def ClientObj.Proceed (this : Tag) (ok : Bool) : ClientObj → ClientObj × List ClientAction
  | .rpc c => (.rpc (c.Proceed this ok).1, (c.Proceed this ok).2)
  | .readStream c => (.readStream (c.Proceed this ok).1, (c.Proceed this ok).2)

/-- The field `callStatus` of a call object. -/
def ClientObj.callStatus : ClientObj → ClientCallStatus
  | .rpc c => c.callStatus
  | .readStream c => c.callStatus

/-- One result of `cq_.Next(&got_tag, &ok)` on the client: the tag and the flag, and, for
the runtime side of the model, what the answered operation stored in the buffers it was
given (`reply` for a read that delivered a message, `status` for a finish). -/
structure ClientCompletion where
  tag : Tag
  ok : Bool
  reply : Option String
  status : Option Status
  deriving DecidableEq, Repr

/-- The buffers of a call object after the runtime has stored what an event brings. -/
def ClientAsyncCall.store (e : ClientCompletion) (c : ClientAsyncCall) : ClientAsyncCall :=
  { c with reply := e.reply.getD c.reply, status := e.status.getD c.status }

/-- Modelled from the spec: the runtime stores the payload of an event in the buffers of the
call object before `Next` returns the event (the runtime is library code outside the two
example files). -/
def ClientObj.store (e : ClientCompletion) : ClientObj → ClientObj
  | .rpc c => .rpc { c with toClientAsyncCall := c.toClientAsyncCall.store e }
  | .readStream c => .readStream { c with toClientAsyncCall := c.toClientAsyncCall.store e }

/-- The client: its own address (`this` inside `GreeterClient`), the heap of call objects,
the allocator, and the record of everything done so far, in order. -/
structure GreeterClient where
  self : Tag
  heap : Tag → Option ClientObj
  nextAddr : Tag
  trace : List ClientAction

/-- A client at address `self` with no call yet; the heap hands out addresses above it. -/
def GreeterClient.init (self : Tag) : GreeterClient :=
  { self := self, heap := fun _ => none, nextAddr := self + 1, trace := [] }

/-- `GreeterClient::SayHello`. -/
def GreeterClient.SayHello (g : GreeterClient) (user : String) : GreeterClient :=
  let call : Tag := g.nextAddr
  let c : RPCClientCall := RPCClientCall.init
  let c1 : RPCClientCall := { c with callStatus := .PROCESS }
  { g with
    heap := Function.update g.heap call (some (.rpc c1)),
    nextAddr := g.nextAddr + 1,
    trace := g.trace ++
      [.PrepareAsyncSayHello call user, .StartCall call, .Finish call g.self] }

/-- `GreeterClient::SayHelloAndListenToGreeter`. -/
def GreeterClient.SayHelloAndListenToGreeter (g : GreeterClient) (user : String) :
    GreeterClient :=
  let call : Tag := g.nextAddr
  let c : ReadStreamClientCall := ReadStreamClientCall.init
  let c1 : ReadStreamClientCall := { c with callStatus := .PROCESS }
  { g with
    heap := Function.update g.heap call (some (.readStream c1)),
    nextAddr := g.nextAddr + 1,
    trace := g.trace ++
      [.PrepareAsyncSayHelloStreamReply call user, .StartCallTagged call call,
       .Finish call g.self] }

/-- Carry out one effect of a client `Proceed`. -/
def GreeterClient.perform (g : GreeterClient) (a : ClientAction) : GreeterClient :=
  match a with
  | .Delete t =>
    { g with heap := Function.update g.heap t none, trace := g.trace ++ [a] }
  | _ => { g with trace := g.trace ++ [a] }

/-- The body of the loop of `AsyncCompleteRpc`: `static_cast` of the tag and
`call->Proceed(ok)`.  A tag that is not the address of a live call object is a fault. -/
def GreeterClient.dispatch (g : GreeterClient) (e : ClientCompletion) :
    Except Fault GreeterClient :=
  match g.heap e.tag with
  | none => .error .badTag
  | some o =>
    .ok (((o.store e).Proceed e.tag e.ok).2.foldl GreeterClient.perform
      { g with heap := Function.update g.heap e.tag (some ((o.store e).Proceed e.tag e.ok).1) })

/-- `GreeterClient::AsyncCompleteRpc` on a queue that returns the events `es` and is then
shut down: the loop ends when `Next` returns false, and the function returns. -/
def GreeterClient.AsyncCompleteRpc : GreeterClient → List ClientCompletion →
    Except Fault GreeterClient
  | g, [] => .ok g
  | g, e :: es =>
    match g.dispatch e with
    | .error f => .error f
    | .ok g1 => GreeterClient.AsyncCompleteRpc g1 es

/-- The events a server stream produces for the call at `call`: the call has started, one
completed read per message, then a read that fails because the stream has ended. -/
def streamEvents (call : Tag) (ms : List String) : List ClientCompletion :=
  [{ tag := call, ok := true, reply := none, status := none }] ++
  ms.map (fun m => { tag := call, ok := true, reply := some m, status := none }) ++
  [{ tag := call, ok := false, reply := none, status := none }]

/-- The messages surfaced to the application: the `PrintReply` lines of a trace. -/
def surfaced (tr : List ClientAction) : List String :=
  tr.filterMap ClientAction.printed?

/-- What a `ReadStreamClientCall` at `call` does while it is handed the messages `ms` one
by one: for each message, the next read, then the `PrintReply` line for the message. -/
def readTrace (call : Tag) (type : String) : List String → List ClientAction
  | [] => []
  | m :: ms => .Read call call :: .PrintReply type m :: readTrace call type ms

/-! ## The invariant of the server -/

/-- The operation a live call object at address `t` is waiting for: the acceptor
registration, the finish, or the write it submitted last. -/
def CallObj.awaits (t : Tag) : CallObj → Option Action
  | .callData c =>
    match c.status_ with
    | .CREATE => none
    | .PROCESS => some (.RequestSayHello t)
    | .FINISH => some (.Finish c.reply_ .OK t)
  | .callDataWriter w =>
    match w.status_ with
    | .CREATE => none
    | .PROCESS =>
      if w.count_ = 0 then some (.RequestSayHelloStreamReply t) else some (.Write w.reply_ t)
    | .FINISH => some (.FinishWriter .OK t)

/-- An acceptor registration. -/
def Action.isRequest : Action → Bool
  | .RequestSayHello _ => true
  | .RequestSayHelloStreamReply _ => true
  | _ => false

/-- Two call objects are of the same class. -/
def CallObj.sameKind : CallObj → CallObj → Prop
  | .callData _, .callData _ => True
  | .callDataWriter _, .callDataWriter _ => True
  | _, _ => False

/-- What holds of every call object between two events: it has left `CREATE`, carries the
prefix its constructor set, and a `CallDataWriter` is either a fresh acceptor or has built
its four messages and has its cursor between 1 and 4. -/
def CallObj.ObjOk : CallObj → Prop
  | .callData c => c.status_ ≠ .CREATE ∧ c.prefix_ = "Hello"
  | .callDataWriter w =>
    w.prefix_ = "Hello" ∧
    ((w.status_ = .PROCESS ∧ w.count_ = 0 ∧ w.new_responder_created_ = false ∧
        w.messages_ = []) ∨
     (w.status_ = .PROCESS ∧ 1 ≤ w.count_ ∧ w.count_ ≤ 4 ∧ w.new_responder_created_ = true ∧
        w.messages_.length = 4) ∨
     (w.status_ = .FINISH ∧ w.count_ = 4 ∧ w.new_responder_created_ = true ∧
        w.messages_.length = 4))

/-- The successor a `Proceed` creates when the event answers an acceptor registration. -/
def spawnFor : Action → Option CallObj
  | .RequestSayHello _ => some (.callData { CallData.init with status_ := .PROCESS })
  | .RequestSayHelloStreamReply _ =>
    some (.callDataWriter { CallDataWriter.init with status_ := .PROCESS })
  | _ => none

/-- The state after one pass of the loop, described by its outcome: the event with tag `t`
answered the operation `a`, the object at `t` became `o2` (`none`: it deleted itself), and
`sp` is the successor created, if any. -/
def ServerImpl.stepTo (sv : ServerImpl) (t : Tag) (a : Action) (o2 sp : Option CallObj) :
    ServerImpl :=
  { heap :=
      match sp with
      | none => Function.update sv.heap t o2
      | some x => Function.update (Function.update sv.heap t o2) sv.nextAddr (some x),
    nextAddr :=
      match sp with
      | none => sv.nextAddr
      | some _ => sv.nextAddr + 1,
    pending := sv.pending.erase a ++
      ((sp.bind (CallObj.awaits sv.nextAddr)).toList ++ (o2.bind (CallObj.awaits t)).toList),
    trace := sv.trace ++
      ((sp.bind (CallObj.awaits sv.nextAddr)).toList ++ (o2.bind (CallObj.awaits t)).toList) ++
      (match o2 with
       | none => [Action.Delete t]
       | some _ => []) }

/-- The invariant of the server between two events. -/
structure ServerImpl.Inv (sv : ServerImpl) : Prop where
  /-- Live objects lie below the allocator and are well formed. -/
  live : ∀ t o, sv.heap t = some o → t < sv.nextAddr ∧ o.ObjOk
  /-- The outstanding operations are exactly those the live objects wait for. -/
  pend : ∀ a, a ∈ sv.pending ↔ ∃ t o, sv.heap t = some o ∧ o.awaits t = some a
  /-- No operation is outstanding twice. -/
  nodup : sv.pending.Nodup
  /-- Exactly one acceptor is registered for `SayHello`. -/
  unary : ∃ t0, Action.RequestSayHello t0 ∈ sv.pending ∧
    ∀ t, Action.RequestSayHello t ∈ sv.pending → t = t0
  /-- Exactly one acceptor is registered for `SayHelloStreamReply`. -/
  stream : ∃ t0, Action.RequestSayHelloStreamReply t0 ∈ sv.pending ∧
    ∀ t, Action.RequestSayHelloStreamReply t ∈ sv.pending → t = t0
  /-- Every outstanding operation is in the trace. -/
  traced : ∀ a, a ∈ sv.pending → a ∈ sv.trace
  /-- Every `CallData` ever registered is live, or was finished with status OK and
  released. -/
  unaryHist : ∀ t, Action.RequestSayHello t ∈ sv.trace →
    t < sv.nextAddr ∧
    (sv.isCallData t ∨
      (sv.heap t = none ∧ Action.Delete t ∈ sv.trace ∧
        ∃ r, Action.Finish r .OK t ∈ sv.trace))

/-- The state `HandleRpcs` enters its loop with: a `CallData` at address 1 and a
`CallDataWriter` at address 2, both registered as acceptors. -/
def ServerImpl.started : ServerImpl :=
  { heap := Function.update
      (Function.update (fun _ => none) 1
        (some (.callData { CallData.init with status_ := .PROCESS })))
      2 (some (.callDataWriter { CallDataWriter.init with status_ := .PROCESS })),
    nextAddr := 3,
    pending := [.RequestSayHello 1, .RequestSayHelloStreamReply 2],
    trace := [.RequestSayHello 1, .RequestSayHelloStreamReply 2] }

/-- The finish of a unary call. -/
def Action.isUnaryFinish : Action → Bool
  | .Finish _ _ _ => true
  | _ => false

/-- The unary calls the server has accepted: the addresses of the `CallData` objects whose
acceptor registration was submitted and has been answered, in order of registration. -/
def ServerImpl.acceptedUnary (sv : ServerImpl) : List Tag :=
  sv.trace.filterMap fun a =>
    match a with
    | .RequestSayHello t => if Action.RequestSayHello t ∈ sv.pending then none else some t
    | _ => none

/-! ## Further definitions: event loop contract, phase order, life of one call state -/

/-- The event loop as the specification words it: for each pulled event, in pull order,
invoke the handler; when the queue reports shutdown (the list is exhausted), return. -/
def eventLoopSpec {σ ε : Type} (handle : σ → ε → Except Fault σ) (s : σ) (es : List ε) :
    Except Fault σ :=
  es.foldlM handle s

/-- Position of a `ClientCallStatus` in the enumeration `{PROCESS, FINISH, DESTROY}`. -/
def ClientCallStatus.toNat : ClientCallStatus → Nat
  | .PROCESS => 0
  | .FINISH => 1
  | .DESTROY => 2

/-- Events handed one after another to the `CallData` at address `this`: the list of `ok`
flags.  Returns the final object and everything it did, in order.  The run ends with the
event on which the object deletes itself. -/
def CallData.drive (this : Tag) : CallData → List Bool → CallData × List Action
  | c, [] => (c, [])
  | c, ok :: oks =>
    if Action.Delete this ∈ (c.Proceed this ok).2 then c.Proceed this ok
    else
      ((CallData.drive this (c.Proceed this ok).1 oks).1,
       (c.Proceed this ok).2 ++ (CallData.drive this (c.Proceed this ok).1 oks).2)

/-- The four messages `InitMessages` appends in the object at address `this` for the
request name `n`, the prefix being the one the constructor set. -/
def fourMessages (this : Tag) (n : String) : List String :=
  ["Hello" ++ n ++ "!", "How are you doing?", "How can I assist you today?",
   "I'm a server ID " ++ ptrToString this]

/-- A `CallDataWriter` at address `this` that has made its first `PROCESS` entry for the
request name `n`: the successor is spawned, the four messages are built, the cursor is
between 1 and 4, and the object is in `PROCESS`, or in `FINISH` with the cursor at 4. -/
def CallDataWriter.Streaming (this : Tag) (n : String) (w : CallDataWriter) : Prop :=
  w.messages_ = fourMessages this n ∧ w.new_responder_created_ = true ∧
  1 ≤ w.count_ ∧ w.count_ ≤ 4 ∧
  (w.status_ = .PROCESS ∨ (w.status_ = .FINISH ∧ w.count_ = 4))

/-! ## Properties of the server call states -/

/-- The constructor of `CallData` leaves the object in `PROCESS` and does nothing but
register it as acceptor under its own address. -/
theorem CallData.callData_ctor_eq (this : Tag) :
    CallData.ctor this =
      ({ CallData.init with status_ := .PROCESS }, [.RequestSayHello this]) := by
  rfl

/-- The constructor of `CallDataWriter` leaves the object in `PROCESS` and does nothing but
register it as acceptor under its own address. -/
theorem CallDataWriter.writer_ctor_eq (this : Tag) :
    CallDataWriter.ctor this =
      some ({ CallDataWriter.init with status_ := .PROCESS },
        [.RequestSayHelloStreamReply this]) := by
  rfl

/-- C1: a `CallData` in `PROCESS` (with the prefix its constructor set) that receives an
event, whatever its `ok` flag, sets the reply to `"Hello"` followed by the request name, moves
to `FINISH` and issues exactly one finish operation, carrying that reply, status OK and its
own address as tag; for the name `"world"` the reply is `"Helloworld"`. -/
theorem C1_callData_process_replies_hello (this : Tag) (ok : Bool) (c : CallData)
    (hs : c.status_ = .PROCESS) (hp : c.prefix_ = CallDataBase.init.prefix_) :
    (c.Proceed this ok).1.reply_ = "Hello" ++ c.request_ ∧
    (c.Proceed this ok).1.status_ = .FINISH ∧
    (c.Proceed this ok).2.filter Action.isFinish =
      [.Finish ("Hello" ++ c.request_) .OK this] ∧
    (c.Proceed this ok).2.filter Action.isOp =
      [.Finish ("Hello" ++ c.request_) .OK this] ∧
    (c.request_ = "world" → (c.Proceed this ok).1.reply_ = "Helloworld") := by
  have hp1 : c.prefix_ = "Hello" := hp
  refine ⟨?_, ?_, ?_, ?_, ?_⟩
  · simp [CallData.Proceed, hs, hp1]
  · simp [CallData.Proceed, hs]
  · simp [CallData.Proceed, hs, hp1, Action.isFinish]
  · simp [CallData.Proceed, hs, hp1, Action.isOp, Action.tag?]
  · intro hn
    simp only [CallData.Proceed, hs, hp1, hn]
    decide

/-- C1 at the scenario of the specification: request name `"world"`, call object at
address 7. -/
theorem C1_callData_process_replies_hello_witness :
    (({ CallData.init with request_ := "world", status_ := .PROCESS } :
        CallData).Proceed 7 true).1.reply_ = "Helloworld" ∧
    (({ CallData.init with request_ := "world", status_ := .PROCESS } :
        CallData).Proceed 7 true).2.filter Action.isFinish =
      [.Finish "Helloworld" .OK 7] :=
  ⟨(C1_callData_process_replies_hello 7 true
      { CallData.init with request_ := "world", status_ := .PROCESS }
      rfl rfl).2.2.2.2 rfl,
   (C1_callData_process_replies_hello 7 true
      { CallData.init with request_ := "world", status_ := .PROCESS }
      rfl rfl).2.2.1⟩

/-- The four messages `InitMessages` builds for the request name `n` in the object at
address `this`. -/
theorem CallDataWriter.InitMessages_init (this : Tag) (n : String) :
    (CallDataWriter.InitMessages this n
        { CallDataWriter.init with status_ := .PROCESS, request_ := n }).messages_ =
      ["Hello" ++ n ++ "!", "How are you doing?", "How can I assist you today?",
       "I'm a server ID " ++ ptrToString this] := by
  rfl

/-- C2: a `CallDataWriter` that has accepted a call with request name `n` and is driven by
`ok = true` events issues four writes, in order `"Hello" ++ n ++ "!"`,
`"How are you doing?"`, `"How can I assist you today?"` and `"I'm a server ID "` followed by
its address; the fifth `PROCESS` entry issues one finish with status OK and moves to
`FINISH`; whatever events follow, no further write or finish is issued. -/
theorem C2_writer_streams_four_then_finishes (this : Tag) (n : String) :
    (∃ w5, CallDataWriter.drive this
        { CallDataWriter.init with status_ := .PROCESS, request_ := n }
        [true, true, true, true, true] =
          some (w5, [.NewCallDataWriter,
            .Write ("Hello" ++ n ++ "!") this,
            .Write "How are you doing?" this,
            .Write "How can I assist you today?" this,
            .Write ("I'm a server ID " ++ ptrToString this) this,
            .FinishWriter .OK this]) ∧
        w5.status_ = .FINISH) ∧
    (∀ oks : List Bool, ∃ r, CallDataWriter.drive this
        { CallDataWriter.init with status_ := .PROCESS, request_ := n }
        ([true, true, true, true, true] ++ oks) = some r ∧
        r.2.filter Action.isWrite =
          [.Write ("Hello" ++ n ++ "!") this,
           .Write "How are you doing?" this,
           .Write "How can I assist you today?" this,
           .Write ("I'm a server ID " ++ ptrToString this) this] ∧
        r.2.filter Action.isFinish = [.FinishWriter .OK this]) := by
  have t1 : toSizeT 1 = 1 := by decide
  have t2 : toSizeT 2 = 2 := by decide
  have t3 : toSizeT 3 = 3 := by decide
  have t4 : toSizeT 4 = 4 := by decide
  have t0 : toSizeT 0 = 0 := by decide
  have hpfx : CallDataBase.init.prefix_ = "Hello" := rfl
  constructor
  · simp [CallDataWriter.drive, CallDataWriter.Proceed, CallDataWriter.InitMessages,
      CallDataWriter.init, vectorAt, t0, t1, t2, t3, t4, hpfx]
  · intro oks
    cases oks with
    | nil =>
      simp [CallDataWriter.drive, CallDataWriter.Proceed, CallDataWriter.InitMessages,
        CallDataWriter.init, vectorAt, t0, t1, t2, t3, t4, hpfx, Action.isWrite,
        Action.isFinish]
    | cons ok oks =>
      simp [CallDataWriter.drive, CallDataWriter.Proceed, CallDataWriter.InitMessages,
        CallDataWriter.init, vectorAt, t0, t1, t2, t3, t4, hpfx, Action.isWrite,
        Action.isFinish]

/-! ## One pass of the server loop -/

theorem CallObj.awaits_tag {t : Tag} {o : CallObj} {a : Action} (h : o.awaits t = some a) :
    a.tag? = some t := by
  cases o with
  | callData c =>
    simp only [CallObj.awaits] at h
    split at h <;> simp at h <;> subst h <;> rfl
  | callDataWriter w =>
    simp only [CallObj.awaits] at h
    split at h
    · simp at h
    · split at h <;> simp at h <;> subst h <;> rfl
    · simp at h
      subst h
      rfl

theorem CallObj.awaits_setRequest (t : Tag) (n : String) (o : CallObj) :
    (o.setRequest n).awaits t = o.awaits t := by
  cases o <;> rfl

theorem CallObj.ObjOk_setRequest (n : String) (o : CallObj) (h : o.ObjOk) :
    (o.setRequest n).ObjOk := by
  cases o <;> exact h

theorem ServerImpl.outstanding_mem {sv : ServerImpl} {t : Tag} {a : Action}
    (h : sv.outstanding t = some a) : a ∈ sv.pending ∧ a.tag? = some t := by
  unfold ServerImpl.outstanding at h
  refine ⟨List.mem_of_find?_eq_some h, ?_⟩
  have := List.find?_some h
  simpa using this

theorem ServerImpl.Inv.outstanding_obj {sv : ServerImpl} (hI : sv.Inv) {t : Tag} {a : Action}
    (h : sv.outstanding t = some a) : ∃ o, sv.heap t = some o ∧ o.awaits t = some a := by
  obtain ⟨hm, ht⟩ := ServerImpl.outstanding_mem h
  obtain ⟨t1, o, ho, hw⟩ := (hI.pend a).1 hm
  have := CallObj.awaits_tag hw
  rw [ht] at this
  cases this
  exact ⟨o, ho, hw⟩

theorem ServerImpl.newCallData_eq (sv : ServerImpl) :
    sv.newCallData =
      { heap := Function.update sv.heap sv.nextAddr
          (some (.callData { CallData.init with status_ := .PROCESS })),
        nextAddr := sv.nextAddr + 1,
        pending := sv.pending ++ [.RequestSayHello sv.nextAddr],
        trace := sv.trace ++ [.RequestSayHello sv.nextAddr] } := by
  rfl

theorem ServerImpl.newCallDataWriter_eq (sv : ServerImpl) :
    sv.newCallDataWriter = .ok
      { heap := Function.update sv.heap sv.nextAddr
          (some (.callDataWriter { CallDataWriter.init with status_ := .PROCESS })),
        nextAddr := sv.nextAddr + 1,
        pending := sv.pending ++ [.RequestSayHelloStreamReply sv.nextAddr],
        trace := sv.trace ++ [.RequestSayHelloStreamReply sv.nextAddr] } := by
  rfl

theorem ServerImpl.iteration_callData_process (sv : ServerImpl) (e : Completion)
    (hok : e.ok = true) (c : CallData) (hs : c.status_ = .PROCESS)
    (ha : sv.outstanding e.tag = some (.RequestSayHello e.tag))
    (ho : sv.heap e.tag = some (.callData c)) :
    sv.iteration e = .ok (sv.stepTo e.tag (.RequestSayHello e.tag)
      (some (.callData { c with request_ := e.name, reply_ := c.prefix_ ++ e.name,
                                 status_ := .FINISH }))
      (spawnFor (.RequestSayHello e.tag))) := by
  simp [ServerImpl.iteration, ServerImpl.next, ha, hok, ServerImpl.dispatch, ho,
    CallObj.setRequest, CallObj.Proceed, CallData.Proceed, hs, ServerImpl.exec,
    ServerImpl.newCallData_eq,
    ServerImpl.perform, ServerImpl.stepTo, spawnFor, CallObj.awaits]

theorem ServerImpl.iteration_callData_finish (sv : ServerImpl) (e : Completion)
    (hok : e.ok = true) (c : CallData) (hs : c.status_ = .FINISH)
    (ha : sv.outstanding e.tag = some (.Finish c.reply_ .OK e.tag))
    (ho : sv.heap e.tag = some (.callData c)) :
    sv.iteration e = .ok (sv.stepTo e.tag (.Finish c.reply_ .OK e.tag) none
      (spawnFor (.Finish c.reply_ .OK e.tag))) := by
  simp [ServerImpl.iteration, ServerImpl.next, ha, hok, ServerImpl.dispatch, ho,
    CallObj.setRequest, CallObj.Proceed, CallData.Proceed, hs, ServerImpl.exec,
    ServerImpl.perform, ServerImpl.stepTo, spawnFor, CallObj.awaits]

theorem ServerImpl.iteration_writer_first (sv : ServerImpl) (e : Completion)
    (hok : e.ok = true) (w : CallDataWriter) (hs : w.status_ = .PROCESS)
    (hc : w.count_ = 0) (hf : w.new_responder_created_ = false) (hm : w.messages_ = [])
    (ha : sv.outstanding e.tag = some (.RequestSayHelloStreamReply e.tag))
    (ho : sv.heap e.tag = some (.callDataWriter w)) :
    sv.iteration e = .ok (sv.stepTo e.tag (.RequestSayHelloStreamReply e.tag)
      (some (.callDataWriter { w with
          request_ := e.name, reply_ := w.prefix_ ++ e.name ++ "!", count_ := 1,
          new_responder_created_ := true,
          messages_ := [w.prefix_ ++ e.name ++ "!", "How are you doing?",
            "How can I assist you today?", "I'm a server ID " ++ ptrToString e.tag] }))
      (spawnFor (.RequestSayHelloStreamReply e.tag))) := by
  have t0 : toSizeT 0 = 0 := by decide
  have hc0 : CallDataWriter.init.count_ = 0 := rfl
  simp [ServerImpl.iteration, ServerImpl.next, ha, hok, ServerImpl.dispatch, ho,
    CallObj.setRequest, CallObj.Proceed, CallDataWriter.Proceed, hs, hc, hf, hm, hc0,
    CallDataWriter.InitMessages, vectorAt, t0, ServerImpl.exec,
    ServerImpl.newCallDataWriter_eq,
    ServerImpl.perform, ServerImpl.stepTo, spawnFor, CallObj.awaits]

theorem toSizeT_small (i : Int) (h0 : 0 ≤ i) (h4 : i ≤ 4) : toSizeT i = i.toNat := by
  unfold toSizeT
  rw [Int.emod_eq_of_lt h0 (by omega)]

theorem ServerImpl.iteration_writer_next (sv : ServerImpl) (e : Completion)
    (hok : e.ok = true) (w : CallDataWriter) (hs : w.status_ = .PROCESS)
    (hc1 : 1 ≤ w.count_) (hc3 : w.count_ ≤ 3) (hf : w.new_responder_created_ = true)
    (hm : w.messages_.length = 4)
    (ha : sv.outstanding e.tag = some (.Write w.reply_ e.tag))
    (ho : sv.heap e.tag = some (.callDataWriter w)) :
    ∃ m, sv.iteration e = .ok (sv.stepTo e.tag (.Write w.reply_ e.tag)
      (some (.callDataWriter { w with reply_ := m, count_ := w.count_ + 1 }))
      (spawnFor (.Write w.reply_ e.tag))) := by
  have hts : toSizeT w.count_ = w.count_.toNat := toSizeT_small _ (by omega) (by omega)
  have hlt : w.count_.toNat < w.messages_.length := by omega
  refine ⟨w.messages_[w.count_.toNat], ?_⟩
  have hne : w.count_ ≠ 0 := by omega
  have hne1 : w.count_ + 1 ≠ 0 := by omega
  have hnle : ¬ w.messages_.length ≤ w.count_.toNat := by omega
  simp [ServerImpl.iteration, ServerImpl.next, ha, hok, ServerImpl.dispatch, ho,
    CallObj.setRequest, CallObj.Proceed, CallDataWriter.Proceed, hs, hf, hne, hne1,
    vectorAt, hts, hlt, hnle, ServerImpl.exec,
    ServerImpl.perform, ServerImpl.stepTo, spawnFor, CallObj.awaits]

theorem ServerImpl.iteration_writer_last (sv : ServerImpl) (e : Completion)
    (hok : e.ok = true) (w : CallDataWriter) (hs : w.status_ = .PROCESS)
    (hc : w.count_ = 4) (hf : w.new_responder_created_ = true)
    (hm : w.messages_.length = 4)
    (ha : sv.outstanding e.tag = some (.Write w.reply_ e.tag))
    (ho : sv.heap e.tag = some (.callDataWriter w)) :
    sv.iteration e = .ok (sv.stepTo e.tag (.Write w.reply_ e.tag)
      (some (.callDataWriter { w with status_ := .FINISH }))
      (spawnFor (.Write w.reply_ e.tag))) := by
  have t4 : toSizeT 4 = 4 := by decide
  simp [ServerImpl.iteration, ServerImpl.next, ha, hok, ServerImpl.dispatch, ho,
    CallObj.setRequest, CallObj.Proceed, CallDataWriter.Proceed, hs, hf, hc, hm, t4,
    vectorAt, ServerImpl.exec,
    ServerImpl.perform, ServerImpl.stepTo, spawnFor, CallObj.awaits]

theorem ServerImpl.iteration_writer_finish (sv : ServerImpl) (e : Completion)
    (hok : e.ok = true) (w : CallDataWriter) (hs : w.status_ = .FINISH)
    (ha : sv.outstanding e.tag = some (.FinishWriter .OK e.tag))
    (ho : sv.heap e.tag = some (.callDataWriter w)) :
    sv.iteration e = .ok (sv.stepTo e.tag (.FinishWriter .OK e.tag) none
      (spawnFor (.FinishWriter .OK e.tag))) := by
  simp [ServerImpl.iteration, ServerImpl.next, ha, hok, ServerImpl.dispatch, ho,
    CallObj.setRequest, CallObj.Proceed, CallDataWriter.Proceed, hs, ServerImpl.exec,
    ServerImpl.perform, ServerImpl.stepTo, spawnFor, CallObj.awaits]

/-- The shape of one pass of the loop on an event with `ok = true` that answers the
outstanding operation `a`: the pass succeeds, and its outcome is described by `stepTo`. -/
theorem ServerImpl.Inv.iteration_shape {sv : ServerImpl} (hI : sv.Inv) (e : Completion)
    (hok : e.ok = true) {a : Action} (ha : sv.outstanding e.tag = some a) :
    ∃ o o2, sv.heap e.tag = some o ∧ o.awaits e.tag = some a ∧
      sv.iteration e = .ok (sv.stepTo e.tag a o2 (spawnFor a)) ∧
      (∀ y, o2 = some y → y.ObjOk ∧ o.sameKind y ∧
        ∀ b, y.awaits e.tag = some b → b.isRequest = false) ∧
      (o2 = none → o.status_ = .FINISH) := by
  obtain ⟨o, ho, hw⟩ := hI.outstanding_obj ha
  have hobj := (hI.live _ _ ho).2
  cases o with
  | callData c =>
    obtain ⟨hne, hp⟩ := hobj
    cases hs : c.status_ with
    | CREATE => exact absurd hs hne
    | PROCESS =>
      simp only [CallObj.awaits, hs, Option.some.injEq] at hw
      subst hw
      refine ⟨_, _, ho, by simp [CallObj.awaits, hs],
        ServerImpl.iteration_callData_process sv e hok c hs ha ho, ?_, by simp⟩
      intro y hy
      simp only [Option.some.injEq] at hy
      subst hy
      refine ⟨⟨by simp, hp⟩, trivial, ?_⟩
      intro b hb
      simp only [CallObj.awaits, Option.some.injEq] at hb
      subst hb
      rfl
    | FINISH =>
      simp only [CallObj.awaits, hs, Option.some.injEq] at hw
      subst hw
      exact ⟨_, none, ho, by simp [CallObj.awaits, hs],
        ServerImpl.iteration_callData_finish sv e hok c hs ha ho, by simp,
        fun _ => hs⟩
  | callDataWriter w =>
    obtain ⟨hp, h1 | h2 | h3⟩ := hobj
    · obtain ⟨hs, hc, hf, hm⟩ := h1
      simp only [CallObj.awaits, hs, hc, if_true, Option.some.injEq] at hw
      subst hw
      refine ⟨_, _, ho, by simp [CallObj.awaits, hs, hc],
        ServerImpl.iteration_writer_first sv e hok w hs hc hf hm ha ho, ?_, by simp⟩
      intro y hy
      simp only [Option.some.injEq] at hy
      subst hy
      refine ⟨⟨hp, Or.inr (Or.inl ⟨hs, by simp, by simp, rfl, by simp⟩)⟩, trivial, ?_⟩
      intro b hb
      simp only [CallObj.awaits, hs] at hb
      simp at hb
      subst hb
      rfl
    · obtain ⟨hs, hc1, hc4, hf, hm⟩ := h2
      have hne : w.count_ ≠ 0 := by omega
      simp only [CallObj.awaits, hs, hne, if_false, Option.some.injEq] at hw
      subst hw
      by_cases hc3 : w.count_ ≤ 3
      · obtain ⟨m, hit⟩ := ServerImpl.iteration_writer_next sv e hok w hs hc1 hc3 hf hm ha ho
        refine ⟨_, _, ho, by simp [CallObj.awaits, hs, hne], hit, ?_, by simp⟩
        intro y hy
        simp only [Option.some.injEq] at hy
        subst hy
        refine ⟨⟨hp, Or.inr (Or.inl ⟨hs, ?_, ?_, hf, hm⟩)⟩, trivial, ?_⟩
        · show 1 ≤ w.count_ + 1
          omega
        · show w.count_ + 1 ≤ 4
          omega
        · intro b hb
          have hne1 : w.count_ + 1 ≠ 0 := by omega
          simp only [CallObj.awaits, hs, hne1, if_false, Option.some.injEq] at hb
          subst hb
          rfl
      · have hc : w.count_ = 4 := by omega
        refine ⟨_, _, ho, by simp [CallObj.awaits, hs, hne],
          ServerImpl.iteration_writer_last sv e hok w hs hc hf hm ha ho, ?_, by simp⟩
        intro y hy
        simp only [Option.some.injEq] at hy
        subst hy
        refine ⟨⟨hp, Or.inr (Or.inr ⟨rfl, hc, hf, hm⟩)⟩, trivial, ?_⟩
        intro b hb
        simp only [CallObj.awaits, Option.some.injEq] at hb
        subst hb
        rfl
    · obtain ⟨hs, hc, hf, hm⟩ := h3
      simp only [CallObj.awaits, hs, Option.some.injEq] at hw
      subst hw
      exact ⟨_, none, ho, by simp [CallObj.awaits, hs],
        ServerImpl.iteration_writer_finish sv e hok w hs ha ho, by simp,
        fun _ => hs⟩

/-! ## The invariant is kept by every pass of the loop -/

theorem ServerImpl.stepTo_heap (sv : ServerImpl) (hfree : sv.heap sv.nextAddr = none)
    (t : Tag) (a : Action) (o2 sp : Option CallObj) (htn : t ≠ sv.nextAddr) (t1 : Tag) :
    (sv.stepTo t a o2 sp).heap t1 =
      if t1 = sv.nextAddr then sp else if t1 = t then o2 else sv.heap t1 := by
  cases sp with
  | none =>
    simp only [ServerImpl.stepTo, Function.update_apply]
    by_cases h1 : t1 = sv.nextAddr
    · subst h1
      simp [htn.symm, hfree]
    · simp [h1]
  | some x =>
    simp only [ServerImpl.stepTo, Function.update_apply]

theorem ServerImpl.stepTo_nextAddr_le (sv : ServerImpl) (t : Tag) (a : Action)
    (o2 sp : Option CallObj) : sv.nextAddr ≤ (sv.stepTo t a o2 sp).nextAddr := by
  cases sp <;> simp [ServerImpl.stepTo]

theorem ServerImpl.stepTo_nextAddr_some (sv : ServerImpl) (t : Tag) (a : Action)
    (o2 : Option CallObj) (x : CallObj) :
    (sv.stepTo t a o2 (some x)).nextAddr = sv.nextAddr + 1 := by
  rfl

theorem mem_stepOps (n t : Tag) (sp o2 : Option CallObj) (b : Action) :
    b ∈ (sp.bind (CallObj.awaits n)).toList ++ (o2.bind (CallObj.awaits t)).toList ↔
      (∃ x, sp = some x ∧ x.awaits n = some b) ∨ (∃ y, o2 = some y ∧ y.awaits t = some b) := by
  simp [Option.mem_toList, Option.bind_eq_some]

theorem stepOps_nodup (n t : Tag) (hne : n ≠ t) (sp o2 : Option CallObj) :
    ((sp.bind (CallObj.awaits n)).toList ++ (o2.bind (CallObj.awaits t)).toList).Nodup := by
  rw [List.nodup_append]
  refine ⟨?_, ?_, ?_⟩
  · cases h : sp.bind (CallObj.awaits n) <;> simp
  · cases h : o2.bind (CallObj.awaits t) <;> simp
  · intro b hb1 hb2
    rw [Option.mem_toList, Option.mem_def, Option.bind_eq_some] at hb1 hb2
    obtain ⟨x, -, hx⟩ := hb1
    obtain ⟨y, -, hy⟩ := hb2
    have h1 := CallObj.awaits_tag hx
    have h2 := CallObj.awaits_tag hy
    rw [h1] at h2
    exact hne (Option.some.inj h2)

theorem spawnFor_spec {a : Action} {x : CallObj} (h : spawnFor a = some x) (n : Tag) :
    x.ObjOk ∧
    (((∃ ta, a = .RequestSayHello ta) ∧ x.awaits n = some (.RequestSayHello n) ∧
        ∃ c, x = .callData c) ∨
     ((∃ ta, a = .RequestSayHelloStreamReply ta) ∧
        x.awaits n = some (.RequestSayHelloStreamReply n) ∧ ∃ w, x = .callDataWriter w)) := by
  cases a <;> simp only [spawnFor, Option.some.injEq] at h <;> try exact absurd h (by simp)
  · subst h
    exact ⟨⟨by simp, rfl⟩, Or.inl ⟨⟨_, rfl⟩, rfl, ⟨_, rfl⟩⟩⟩
  · subst h
    exact ⟨⟨rfl, Or.inl ⟨rfl, rfl, rfl, rfl⟩⟩, Or.inr ⟨⟨_, rfl⟩, rfl, ⟨_, rfl⟩⟩⟩

theorem ServerImpl.Inv.stepTo {sv : ServerImpl} (hI : sv.Inv) {t : Tag} {a : Action}
    {o : CallObj} {o2 : Option CallObj} (ho : sv.heap t = some o)
    (hw : o.awaits t = some a)
    (hy : ∀ y, o2 = some y → y.ObjOk ∧ o.sameKind y ∧
      ∀ b, y.awaits t = some b → b.isRequest = false)
    (hd : o2 = none → o.status_ = .FINISH) :
    (sv.stepTo t a o2 (spawnFor a)).Inv := by
  have htn : t < sv.nextAddr := (hI.live _ _ ho).1
  have hfree : sv.heap sv.nextAddr = none := by
    cases h : sv.heap sv.nextAddr with
    | none => rfl
    | some x => exact absurd (hI.live _ _ h).1 (lt_irrefl _)
  have hheap := ServerImpl.stepTo_heap sv hfree t a o2 (spawnFor a) (ne_of_lt htn)
  have hamem : a ∈ sv.pending := (hI.pend a).2 ⟨t, o, ho, hw⟩
  have hatag : a.tag? = some t := CallObj.awaits_tag hw
  have hK : ∀ b, b ∈ sv.pending.erase a →
      b ∈ sv.pending ∧ ∃ t1 o1, sv.heap t1 = some o1 ∧ o1.awaits t1 = some b ∧
        t1 ≠ t ∧ t1 < sv.nextAddr := by
    intro b hb
    have hbp : b ∈ sv.pending := List.mem_of_mem_erase hb
    obtain ⟨t1, o1, ho1, hb1⟩ := (hI.pend b).1 hbp
    refine ⟨hbp, t1, o1, ho1, hb1, ?_, (hI.live _ _ ho1).1⟩
    intro hEq
    subst hEq
    rw [ho] at ho1
    cases ho1
    rw [hw] at hb1
    cases hb1
    exact (List.Nodup.not_mem_erase hI.nodup) hb
  have hpend : ∀ b, b ∈ (sv.stepTo t a o2 (spawnFor a)).pending ↔
      b ∈ sv.pending.erase a ∨
      (∃ x, spawnFor a = some x ∧ x.awaits sv.nextAddr = some b) ∨
      (∃ y, o2 = some y ∧ y.awaits t = some b) := by
    intro b
    show b ∈ sv.pending.erase a ++ (_ ++ _) ↔ _
    rw [List.mem_append, mem_stepOps]
  have htrace : ∀ b, b ∈ (sv.stepTo t a o2 (spawnFor a)).trace ↔
      b ∈ sv.trace ∨
      ((∃ x, spawnFor a = some x ∧ x.awaits sv.nextAddr = some b) ∨
       (∃ y, o2 = some y ∧ y.awaits t = some b)) ∨
      (o2 = none ∧ b = .Delete t) := by
    intro b
    show b ∈ sv.trace ++ (_ ++ _) ++ _ ↔ _
    rw [List.mem_append, List.mem_append, mem_stepOps, or_assoc]
    rcases Option.eq_none_or_eq_some o2 with ho2 | ⟨y, ho2⟩ <;> simp [ho2]
  have hreqOld : ∀ b, b.isRequest = true → b ≠ a → b ∈ sv.pending →
      b ∈ sv.pending.erase a := by
    intro b _ hne hb
    exact (List.mem_erase_of_ne hne).2 hb
  refine
    { live := ?_, pend := ?_, nodup := ?_, unary := ?_, stream := ?_, traced := ?_,
      unaryHist := ?_ }
  · -- live
    intro t1 o1 h1
    rw [hheap] at h1
    by_cases e1 : t1 = sv.nextAddr
    · rw [if_pos e1] at h1
      rw [h1, ServerImpl.stepTo_nextAddr_some, e1]
      exact ⟨Nat.lt_succ_self _, (spawnFor_spec h1 sv.nextAddr).1⟩
    · rw [if_neg e1] at h1
      have hle := ServerImpl.stepTo_nextAddr_le sv t a o2 (spawnFor a)
      by_cases e2 : t1 = t
      · rw [if_pos e2] at h1
        exact ⟨e2.symm ▸ lt_of_lt_of_le htn hle, (hy _ h1).1⟩
      · rw [if_neg e2] at h1
        have := hI.live _ _ h1
        exact ⟨lt_of_lt_of_le this.1 hle, this.2⟩
  · -- pend
    intro b
    rw [hpend]
    constructor
    · rintro (hb | ⟨x, hx, hbx⟩ | ⟨y, hy1, hby⟩)
      · obtain ⟨-, t1, o1, ho1, hb1, hne, hlt⟩ := hK b hb
        refine ⟨t1, o1, ?_, hb1⟩
        rw [hheap, if_neg (ne_of_lt hlt), if_neg hne]
        exact ho1
      · refine ⟨sv.nextAddr, x, ?_, hbx⟩
        rw [hheap, if_pos rfl]
        exact hx
      · refine ⟨t, y, ?_, hby⟩
        rw [hheap, if_neg (ne_of_lt htn), if_pos rfl]
        exact hy1
    · rintro ⟨t1, o1, ho1, hb1⟩
      rw [hheap] at ho1
      by_cases e1 : t1 = sv.nextAddr
      · rw [if_pos e1] at ho1
        subst e1
        exact Or.inr (Or.inl ⟨o1, ho1, hb1⟩)
      · rw [if_neg e1] at ho1
        by_cases e2 : t1 = t
        · rw [if_pos e2] at ho1
          subst e2
          exact Or.inr (Or.inr ⟨o1, ho1, hb1⟩)
        · rw [if_neg e2] at ho1
          left
          have hbp : b ∈ sv.pending := (hI.pend b).2 ⟨t1, o1, ho1, hb1⟩
          have hne : b ≠ a := by
            intro hEq
            subst hEq
            have := CallObj.awaits_tag hb1
            rw [hatag] at this
            exact e2 (Option.some.inj this).symm
          exact (List.mem_erase_of_ne hne).2 hbp
  · -- nodup
    show (sv.pending.erase a ++ _).Nodup
    rw [List.nodup_append]
    refine ⟨hI.nodup.erase a, stepOps_nodup _ _ (ne_of_gt htn) _ _, ?_⟩
    intro b hb1 hb2
    obtain ⟨-, t1, o1, -, hb, hne, hlt⟩ := hK b hb1
    have htag := CallObj.awaits_tag hb
    rw [mem_stepOps] at hb2
    rcases hb2 with ⟨x, -, hx⟩ | ⟨y, -, hy1⟩
    · have := CallObj.awaits_tag hx
      rw [htag] at this
      exact (ne_of_lt hlt) (Option.some.inj this)
    · have := CallObj.awaits_tag hy1
      rw [htag] at this
      exact hne (Option.some.inj this)
  · -- unary
    obtain ⟨t0, ht0, huniq⟩ := hI.unary
    by_cases hreq : ∃ ta, a = .RequestSayHello ta
    · obtain ⟨ta, rfl⟩ := hreq
      have hta : ta = t := by simpa [Action.tag?] using hatag
      subst hta
      refine ⟨sv.nextAddr, ?_, ?_⟩
      · rw [hpend]
        exact Or.inr (Or.inl ⟨_, rfl, rfl⟩)
      · intro t1 h1
        rw [hpend] at h1
        rcases h1 with h1 | ⟨x, hx, hbx⟩ | ⟨y, hy1, hby⟩
        · exfalso
          have hp1 := List.mem_of_mem_erase h1
          have e1 := huniq _ hp1
          have e2 := huniq _ hamem
          rw [e1, ← e2] at h1
          exact (List.Nodup.not_mem_erase hI.nodup) h1
        · have := CallObj.awaits_tag hbx
          simpa [Action.tag?] using this
        · have := (hy _ hy1).2.2 _ hby
          simp [Action.isRequest] at this
    · refine ⟨t0, ?_, ?_⟩
      · rw [hpend]
        left
        refine (List.mem_erase_of_ne ?_).2 ht0
        intro hEq
        exact hreq ⟨t0, hEq.symm⟩
      · intro t1 h1
        rw [hpend] at h1
        rcases h1 with h1 | ⟨x, hx, hbx⟩ | ⟨y, hy1, hby⟩
        · exact huniq _ (List.mem_of_mem_erase h1)
        · exfalso
          rcases (spawnFor_spec hx sv.nextAddr).2 with ⟨hra, -, -⟩ | ⟨-, hwx, -⟩
          · exact hreq hra
          · rw [hwx] at hbx
            cases hbx
        · have := (hy _ hy1).2.2 _ hby
          simp [Action.isRequest] at this
  · -- stream
    obtain ⟨t0, ht0, huniq⟩ := hI.stream
    by_cases hreq : ∃ ta, a = .RequestSayHelloStreamReply ta
    · obtain ⟨ta, rfl⟩ := hreq
      have hta : ta = t := by simpa [Action.tag?] using hatag
      subst hta
      refine ⟨sv.nextAddr, ?_, ?_⟩
      · rw [hpend]
        exact Or.inr (Or.inl ⟨_, rfl, rfl⟩)
      · intro t1 h1
        rw [hpend] at h1
        rcases h1 with h1 | ⟨x, hx, hbx⟩ | ⟨y, hy1, hby⟩
        · exfalso
          have hp1 := List.mem_of_mem_erase h1
          have e1 := huniq _ hp1
          have e2 := huniq _ hamem
          rw [e1, ← e2] at h1
          exact (List.Nodup.not_mem_erase hI.nodup) h1
        · have := CallObj.awaits_tag hbx
          simpa [Action.tag?] using this
        · have := (hy _ hy1).2.2 _ hby
          simp [Action.isRequest] at this
    · refine ⟨t0, ?_, ?_⟩
      · rw [hpend]
        left
        refine (List.mem_erase_of_ne ?_).2 ht0
        intro hEq
        exact hreq ⟨t0, hEq.symm⟩
      · intro t1 h1
        rw [hpend] at h1
        rcases h1 with h1 | ⟨x, hx, hbx⟩ | ⟨y, hy1, hby⟩
        · exact huniq _ (List.mem_of_mem_erase h1)
        · exfalso
          rcases (spawnFor_spec hx sv.nextAddr).2 with ⟨-, hwx, -⟩ | ⟨hra, -, -⟩
          · rw [hwx] at hbx
            cases hbx
          · exact hreq hra
        · have := (hy _ hy1).2.2 _ hby
          simp [Action.isRequest] at this
  · -- traced
    intro b hb
    rw [hpend] at hb
    rw [htrace]
    rcases hb with hb | hb | hb
    · exact Or.inl (hI.traced _ (List.mem_of_mem_erase hb))
    · exact Or.inr (Or.inl (Or.inl hb))
    · exact Or.inr (Or.inl (Or.inr hb))
  · -- unaryHist
    intro t1 h1
    have hle := ServerImpl.stepTo_nextAddr_le sv t a o2 (spawnFor a)
    rw [htrace] at h1
    rcases h1 with h1 | (⟨x, hx, hbx⟩ | ⟨y, hy1, hby⟩) | ⟨-, h1⟩
    · obtain ⟨hlt, hold⟩ := hI.unaryHist t1 h1
      refine ⟨lt_of_lt_of_le hlt hle, ?_⟩
      by_cases e2 : t1 = t
      · subst e2
        rcases hold with ⟨c, hc⟩ | ⟨hnone, -, -⟩
        · rw [ho] at hc
          cases hc
          rcases Option.eq_none_or_eq_some o2 with ho2 | ⟨y, ho2⟩
          · right
            refine ⟨?_, ?_, ?_⟩
            · rw [hheap, if_neg (ne_of_lt hlt), if_pos rfl]
              exact ho2
            · rw [htrace]
              exact Or.inr (Or.inr ⟨ho2, rfl⟩)
            · have hfin : c.status_ = .FINISH := hd ho2
              simp only [CallObj.awaits, hfin, Option.some.injEq] at hw
              refine ⟨c.reply_, ?_⟩
              rw [htrace]
              left
              rw [hw]
              exact hI.traced _ hamem
          · left
            have hk := (hy _ ho2).2.1
            cases y with
            | callData c2 =>
              refine ⟨c2, ?_⟩
              rw [hheap, if_neg (ne_of_lt hlt), if_pos rfl]
              exact ho2
            | callDataWriter w2 => exact absurd hk (by simp [CallObj.sameKind])
        · rw [ho] at hnone
          cases hnone
      · have hh : (sv.stepTo t a o2 (spawnFor a)).heap t1 = sv.heap t1 := by
          rw [hheap, if_neg (ne_of_lt hlt), if_neg e2]
        rcases hold with ⟨c, hc⟩ | ⟨hnone, hdel, r, hr⟩
        · exact Or.inl ⟨c, by rw [hh]; exact hc⟩
        · refine Or.inr ⟨by rw [hh]; exact hnone, ?_, r, ?_⟩
          · rw [htrace]
            exact Or.inl hdel
          · rw [htrace]
            exact Or.inl hr
    · have htag := CallObj.awaits_tag hbx
      have e1 : t1 = sv.nextAddr := by simpa [Action.tag?] using htag
      subst e1
      rw [hx, ServerImpl.stepTo_nextAddr_some]
      refine ⟨Nat.lt_succ_self _, Or.inl ?_⟩
      rcases (spawnFor_spec hx sv.nextAddr).2 with ⟨-, -, c, hc⟩ | ⟨-, hwx, -⟩
      · refine ⟨c, ?_⟩
        rw [← hx, hheap, if_pos rfl, hx, hc]
      · rw [hwx] at hbx
        cases hbx
    · have := (hy _ hy1).2.2 _ hby
      simp [Action.isRequest] at this
    · cases h1

/-! ## Reachable states of the server -/

theorem ServerImpl.start_eq : ServerImpl.start = .ok ServerImpl.started := by
  rfl

theorem ServerImpl.started_heap (t : Tag) (o : CallObj)
    (h : ServerImpl.started.heap t = some o) :
    (t = 1 ∧ o = .callData { CallData.init with status_ := .PROCESS }) ∨
    (t = 2 ∧ o = .callDataWriter { CallDataWriter.init with status_ := .PROCESS }) := by
  simp only [ServerImpl.started, Function.update_apply] at h
  by_cases h2 : t = 2
  · right
    rw [if_pos h2] at h
    exact ⟨h2, (Option.some.inj h).symm⟩
  · rw [if_neg h2] at h
    by_cases h1 : t = 1
    · left
      rw [if_pos h1] at h
      exact ⟨h1, (Option.some.inj h).symm⟩
    · rw [if_neg h1] at h
      cases h

theorem ServerImpl.started_inv : ServerImpl.started.Inv := by
  have h1 : ServerImpl.started.heap 1 =
      some (.callData { CallData.init with status_ := .PROCESS }) := by
    simp [ServerImpl.started, Function.update_apply]
  have h2 : ServerImpl.started.heap 2 =
      some (.callDataWriter { CallDataWriter.init with status_ := .PROCESS }) := by
    simp [ServerImpl.started, Function.update_apply]
  refine
    { live := ?_, pend := ?_, nodup := ?_, unary := ?_, stream := ?_, traced := ?_,
      unaryHist := ?_ }
  · intro t o h
    rcases ServerImpl.started_heap t o h with ⟨rfl, rfl⟩ | ⟨rfl, rfl⟩
    · exact ⟨by decide, by simp, rfl⟩
    · exact ⟨by decide, rfl, Or.inl ⟨rfl, rfl, rfl, rfl⟩⟩
  · intro a
    constructor
    · intro ha
      simp only [ServerImpl.started, List.mem_cons, List.mem_singleton, List.not_mem_nil,
        or_false] at ha
      rcases ha with rfl | rfl
      · exact ⟨1, _, h1, rfl⟩
      · exact ⟨2, _, h2, rfl⟩
    · rintro ⟨t, o, ho, hw⟩
      rcases ServerImpl.started_heap t o ho with ⟨rfl, rfl⟩ | ⟨rfl, rfl⟩
      · have : a = .RequestSayHello 1 := (Option.some.inj hw).symm
        subst this
        simp [ServerImpl.started]
      · have : a = .RequestSayHelloStreamReply 2 := (Option.some.inj hw).symm
        subst this
        simp [ServerImpl.started]
  · simp [ServerImpl.started]
  · refine ⟨1, by simp [ServerImpl.started], ?_⟩
    intro t ht
    simpa [ServerImpl.started] using ht
  · refine ⟨2, by simp [ServerImpl.started], ?_⟩
    intro t ht
    simpa [ServerImpl.started] using ht
  · intro a ha
    exact ha
  · intro t ht
    have : t = 1 := by simpa [ServerImpl.started] using ht
    subst this
    exact ⟨by decide, Or.inl ⟨_, h1⟩⟩

/-- A pass of the loop that does not end in a fault was given an event with `ok = true`
that answers an outstanding operation. -/
theorem ServerImpl.iteration_ok {sv sv1 : ServerImpl} {e : Completion}
    (h : sv.iteration e = .ok sv1) :
    e.ok = true ∧ ∃ a, sv.outstanding e.tag = some a := by
  unfold ServerImpl.iteration ServerImpl.next at h
  cases ha : sv.outstanding e.tag with
  | none =>
    rw [ha] at h
    cases h
  | some a =>
    rw [ha] at h
    cases hok : e.ok with
    | false =>
      simp [hok] at h
    | true => exact ⟨rfl, a, rfl⟩

theorem ServerImpl.Inv.iteration {sv sv1 : ServerImpl} (hI : sv.Inv) {e : Completion}
    (h : sv.iteration e = .ok sv1) : sv1.Inv := by
  obtain ⟨hok, a, ha⟩ := ServerImpl.iteration_ok h
  obtain ⟨o, o2, ho, hw, hit, hy, hd⟩ := hI.iteration_shape e hok ha
  rw [hit] at h
  cases h
  exact hI.stepTo ho hw hy hd

theorem ServerImpl.Inv.loop {sv : ServerImpl} (hI : sv.Inv) (es : List Completion) :
    ∀ {sv1 : ServerImpl}, sv.loop es = .ok sv1 → sv1.Inv := by
  induction es generalizing sv with
  | nil =>
    intro sv1 h
    cases h
    exact hI
  | cons e es ih =>
    intro sv1 h
    simp only [ServerImpl.loop] at h
    cases hit : sv.iteration e with
    | error f =>
      rw [hit] at h
      cases h
    | ok sv2 =>
      rw [hit] at h
      exact ih (hI.iteration hit) h

/-- Every state `HandleRpcs` reaches satisfies the invariant. -/
theorem ServerImpl.run_inv {es : List Completion} {sv : ServerImpl}
    (h : ServerImpl.run es = .ok sv) : sv.Inv := by
  unfold ServerImpl.run at h
  rw [ServerImpl.start_eq] at h
  exact ServerImpl.started_inv.loop es h

theorem CallObj.awaits_requestSayHello {t t0 : Tag} {o : CallObj}
    (h : o.awaits t = some (.RequestSayHello t0)) :
    ∃ c, o = .callData c ∧ c.status_ = .PROCESS ∧ t0 = t := by
  cases o with
  | callData c =>
    simp only [CallObj.awaits] at h
    split at h
    · cases h
    · rename_i hs
      cases h
      exact ⟨c, rfl, hs, rfl⟩
    · cases h
  | callDataWriter w =>
    simp only [CallObj.awaits] at h
    split at h
    · cases h
    · split at h <;> cases h
    · cases h

theorem CallObj.awaits_requestSayHelloStreamReply {t t0 : Tag} {o : CallObj}
    (h : o.awaits t = some (.RequestSayHelloStreamReply t0)) :
    ∃ w, o = .callDataWriter w ∧ w.status_ = .PROCESS ∧ t0 = t := by
  cases o with
  | callData c =>
    simp only [CallObj.awaits] at h
    split at h <;> cases h
  | callDataWriter w =>
    simp only [CallObj.awaits] at h
    split at h
    · cases h
    · rename_i hs
      split at h
      · cases h
        exact ⟨w, rfl, hs, rfl⟩
      · cases h
    · cases h

/-- What a live `CallData` waits for: its acceptor registration or its finish. -/
theorem ServerImpl.Inv.callData_pending {sv : ServerImpl} (hI : sv.Inv) {t : Tag}
    {c : CallData} (h : sv.heap t = some (.callData c)) :
    (c.status_ = .PROCESS ∧ Action.RequestSayHello t ∈ sv.pending) ∨
    (c.status_ = .FINISH ∧ Action.Finish c.reply_ .OK t ∈ sv.pending) := by
  have hne := (hI.live _ _ h).2.1
  cases hs : c.status_ with
  | CREATE => exact absurd hs hne
  | PROCESS =>
    exact Or.inl ⟨rfl, (hI.pend _).2 ⟨t, _, h, by simp [CallObj.awaits, hs]⟩⟩
  | FINISH =>
    exact Or.inr ⟨rfl, (hI.pend _).2 ⟨t, _, h, by simp [CallObj.awaits, hs]⟩⟩

/-! ## The claims about the server loop -/

/-- C3, as stated, fails in the very first state of `HandleRpcs`: the constructors have
already run the `CREATE` branch of `Proceed`, so no call object has `status_ == CREATE`; and
an event with `ok = false` for the outstanding registration of the `CallDataWriter` at
address 2 leaves no server state at all, the loop stopping at `GPR_ASSERT(ok)`. -/
theorem C3_no_call_state_in_create :
    (∃ sv, ServerImpl.run [] = .ok sv ∧
      ¬ ∃ t o, sv.heap t = some o ∧ o.status_ = .CREATE) ∧
    ServerImpl.run [{ tag := 2, ok := false, name := "" }] = .error .notOk := by
  refine ⟨⟨ServerImpl.started, rfl, ?_⟩, rfl⟩
  rintro ⟨t, o, ho, hs⟩
  rcases ServerImpl.started_heap t o ho with ⟨-, rfl⟩ | ⟨-, rfl⟩ <;> cases hs

/-- C3, amended: in every state `HandleRpcs` reaches, each of the two methods has a call
object registered as acceptor whose registration is still outstanding; the `status_` of that
object is `PROCESS`, and no live call object has `status_ == CREATE`. -/
theorem C3_acceptor_registered_for_each_method (es : List Completion) (sv : ServerImpl)
    (h : ServerImpl.run es = .ok sv) :
    (∃ t c, sv.heap t = some (.callData c) ∧ c.status_ = .PROCESS ∧
      Action.RequestSayHello t ∈ sv.pending) ∧
    (∃ t w, sv.heap t = some (.callDataWriter w) ∧ w.status_ = .PROCESS ∧
      Action.RequestSayHelloStreamReply t ∈ sv.pending) ∧
    (∀ t o, sv.heap t = some o → o.status_ ≠ .CREATE) := by
  have hI := ServerImpl.run_inv h
  refine ⟨?_, ?_, ?_⟩
  · obtain ⟨t0, ht0, -⟩ := hI.unary
    obtain ⟨t, o, ho, hw⟩ := (hI.pend _).1 ht0
    obtain ⟨c, rfl, hs, rfl⟩ := CallObj.awaits_requestSayHello hw
    exact ⟨_, c, ho, hs, ht0⟩
  · obtain ⟨t0, ht0, -⟩ := hI.stream
    obtain ⟨t, o, ho, hw⟩ := (hI.pend _).1 ht0
    obtain ⟨w, rfl, hs, rfl⟩ := CallObj.awaits_requestSayHelloStreamReply hw
    exact ⟨_, w, ho, hs, ht0⟩
  · intro t o ho
    have hobj := (hI.live _ _ ho).2
    cases o with
    | callData c => exact hobj.1
    | callDataWriter w =>
      rcases hobj.2 with h1 | h1 | h1 <;>
        · show w.status_ ≠ .CREATE
          rw [h1.1]
          decide

/-- C3, amended, after a unary call and a streaming call have been accepted and the unary
call has completed. -/
theorem C3_acceptor_registered_for_each_method_witness :
    ∃ sv, ServerImpl.run
        [{ tag := 1, ok := true, name := "world" }, { tag := 2, ok := true, name := "sasha" },
         { tag := 1, ok := true, name := "" }] = .ok sv ∧
      (∃ t c, sv.heap t = some (.callData c) ∧ c.status_ = .PROCESS ∧
        Action.RequestSayHello t ∈ sv.pending) ∧
      (∃ t w, sv.heap t = some (.callDataWriter w) ∧ w.status_ = .PROCESS ∧
        Action.RequestSayHelloStreamReply t ∈ sv.pending) ∧
      (∀ t o, sv.heap t = some o → o.status_ ≠ .CREATE) :=
  ⟨_, rfl, C3_acceptor_registered_for_each_method
    [{ tag := 1, ok := true, name := "world" }, { tag := 2, ok := true, name := "sasha" },
     { tag := 1, ok := true, name := "" }] _ rfl⟩

theorem ServerImpl.mem_acceptedUnary (sv : ServerImpl) (t : Tag) :
    t ∈ sv.acceptedUnary ↔
      Action.RequestSayHello t ∈ sv.trace ∧ Action.RequestSayHello t ∉ sv.pending := by
  unfold ServerImpl.acceptedUnary
  rw [List.mem_filterMap]
  constructor
  · rintro ⟨a, ha, hf⟩
    cases a with
    | RequestSayHello t1 =>
      by_cases hp : Action.RequestSayHello t1 ∈ sv.pending
      · simp only [if_pos hp] at hf
        cases hf
      · simp only [if_neg hp, Option.some.injEq] at hf
        subst hf
        exact ⟨ha, hp⟩
    | _ => cases hf
  · rintro ⟨ht, hp⟩
    exact ⟨_, ht, by simp [hp]⟩

/-- C4: for every `N` and every sequence of events `HandleRpcs` handles in which `N` unary
calls are accepted (whatever the interleaving, streaming events included), once no finish of
a unary call is outstanding every one of the `N` accepted calls has been finished with
status OK and released, and exactly one `CallData` is live, its registration outstanding. -/
theorem C4_unary_calls_finished_and_one_acceptor_left (N : Nat) (es : List Completion)
    (sv : ServerImpl) (h : ServerImpl.run es = .ok sv)
    (hN : sv.acceptedUnary.length = N)
    (hq : ∀ r st t, Action.Finish r st t ∉ sv.pending) :
    sv.acceptedUnary.length = N ∧
    (∀ t ∈ sv.acceptedUnary,
      (∃ r, Action.Finish r .OK t ∈ sv.trace) ∧ Action.Delete t ∈ sv.trace ∧
        sv.heap t = none) ∧
    (∃ t, sv.isCallData t ∧ Action.RequestSayHello t ∈ sv.pending ∧
      ∀ t1, sv.isCallData t1 → t1 = t) := by
  have hI := ServerImpl.run_inv h
  refine ⟨hN, ?_, ?_⟩
  · intro t hacc
    obtain ⟨ht, hnp⟩ := (sv.mem_acceptedUnary t).1 hacc
    rcases (hI.unaryHist t ht).2 with ⟨c, hc⟩ | ⟨hnone, hdel, hfin⟩
    · rcases hI.callData_pending hc with ⟨-, hp⟩ | ⟨-, hp⟩
      · exact absurd hp hnp
      · exact absurd hp (hq _ _ _)
    · exact ⟨hfin, hdel, hnone⟩
  · obtain ⟨t0, ht0, huniq⟩ := hI.unary
    obtain ⟨t, o, ho, hw⟩ := (hI.pend _).1 ht0
    obtain ⟨c, rfl, -, rfl⟩ := CallObj.awaits_requestSayHello hw
    refine ⟨_, ⟨c, ho⟩, ht0, ?_⟩
    rintro t1 ⟨c1, hc1⟩
    rcases hI.callData_pending hc1 with ⟨-, hp⟩ | ⟨-, hp⟩
    · exact huniq _ hp
    · exact absurd hp (hq _ _ _)

theorem no_unary_finish_of_all {l : List Action}
    (h : l.all (fun a => !a.isUnaryFinish) = true) :
    ∀ r st t, Action.Finish r st t ∉ l := by
  intro r st t hm
  have := List.all_eq_true.1 h _ hm
  simp [Action.isUnaryFinish] at this

/-- C4 for two unary calls whose events interleave: the call accepted by the object at
address 1, then the call accepted by its successor at address 3, the finish of the second
completing before the finish of the first. -/
theorem C4_unary_calls_finished_and_one_acceptor_left_witness :
    ∃ sv, ServerImpl.run
        [{ tag := 1, ok := true, name := "a" }, { tag := 3, ok := true, name := "b" },
         { tag := 3, ok := true, name := "" }, { tag := 1, ok := true, name := "" }] = .ok sv ∧
      sv.acceptedUnary = [1, 3] ∧
      sv.acceptedUnary.length = 2 ∧
      (∀ t ∈ sv.acceptedUnary,
        (∃ r, Action.Finish r .OK t ∈ sv.trace) ∧ Action.Delete t ∈ sv.trace ∧
          sv.heap t = none) ∧
      (∃ t, sv.isCallData t ∧ Action.RequestSayHello t ∈ sv.pending ∧
        ∀ t1, sv.isCallData t1 → t1 = t) :=
  ⟨_, rfl, by decide, C4_unary_calls_finished_and_one_acceptor_left 2
    [{ tag := 1, ok := true, name := "a" }, { tag := 3, ok := true, name := "b" },
     { tag := 3, ok := true, name := "" }, { tag := 1, ok := true, name := "" }] _ rfl
    (by decide) (no_unary_finish_of_all (by decide))⟩

/-- C10, as stated, fails: an event with `ok = false` for the outstanding registration of
the `CallData` at address 1 stops `HandleRpcs` at `GPR_ASSERT(ok)`; the event is not
dispatched and the events after it are never pulled. -/
theorem C10_ok_false_halts_the_loop :
    ServerImpl.run [{ tag := 1, ok := false, name := "" }] = .error .notOk ∧
    ServerImpl.HandleRpcs
      [{ tag := 1, ok := false, name := "" }, { tag := 2, ok := true, name := "sasha" }] =
        .notOk := by
  constructor <;> rfl

/-- C10, amended: in every state `HandleRpcs` reaches, an event with `ok = true` that
answers an outstanding operation is dispatched to the call object at its tag, the loop goes
on with the remaining events, and every other live call object is left as it was; an event
with `ok = false` stops the loop at `GPR_ASSERT(ok)`. -/
theorem C10_loop_dispatches_ok_events_and_aborts_otherwise (es : List Completion)
    (sv : ServerImpl) (h : ServerImpl.run es = .ok sv) (e : Completion) (a : Action)
    (ha : sv.outstanding e.tag = some a) :
    (e.ok = true →
      ∃ sv0 sv1, sv.next e = .ok sv0 ∧ sv0.dispatch e.tag true = .ok sv1 ∧
        sv.iteration e = .ok sv1 ∧
        (∀ rest, sv.loop (e :: rest) = sv1.loop rest) ∧
        ∀ t o, t ≠ e.tag → sv.heap t = some o → sv1.heap t = some o) ∧
    (e.ok = false →
      sv.iteration e = .error .notOk ∧ ∀ rest, sv.loop (e :: rest) = .error .notOk) := by
  have hI := ServerImpl.run_inv h
  constructor
  · intro hok
    obtain ⟨o, o2, ho, hw, hit, -, -⟩ := hI.iteration_shape e hok ha
    have hnext : ∃ sv0, sv.next e = .ok sv0 := by
      simp only [ServerImpl.next, ha]
      exact ⟨_, rfl⟩
    obtain ⟨sv0, hsv0⟩ := hnext
    refine ⟨sv0, _, hsv0, ?_, hit, ?_, ?_⟩
    · have := hit
      simp only [ServerImpl.iteration, hsv0, hok, if_true] at this
      exact this
    · intro rest
      simp only [ServerImpl.loop, hit]
    · intro t o1 hne ho1
      have hfree : sv.heap sv.nextAddr = none := by
        cases h1 : sv.heap sv.nextAddr with
        | none => rfl
        | some x => exact absurd (hI.live _ _ h1).1 (lt_irrefl _)
      have htn := (hI.live _ _ ho).1
      have hlt := (hI.live _ _ ho1).1
      rw [ServerImpl.stepTo_heap sv hfree e.tag a o2 (spawnFor a) (ne_of_lt htn),
        if_neg (ne_of_lt hlt), if_neg hne]
      exact ho1
  · intro hok
    have hit : sv.iteration e = .error .notOk := by
      simp [ServerImpl.iteration, ServerImpl.next, ha, hok]
    refine ⟨hit, ?_⟩
    intro rest
    simp only [ServerImpl.loop, hit]

/-- C10, amended, at the first event of a run: the `CallData` at address 1 accepts a call
with request name `"world"`. -/
theorem C10_loop_dispatches_ok_events_and_aborts_otherwise_witness :
    ∃ sv0 sv1, ServerImpl.started.next { tag := 1, ok := true, name := "world" } = .ok sv0 ∧
      sv0.dispatch 1 true = .ok sv1 ∧
      ServerImpl.started.iteration { tag := 1, ok := true, name := "world" } = .ok sv1 ∧
      (∀ rest, ServerImpl.started.loop ({ tag := 1, ok := true, name := "world" } :: rest) =
        sv1.loop rest) ∧
      ∀ t o, t ≠ 1 → ServerImpl.started.heap t = some o → sv1.heap t = some o :=
  (C10_loop_dispatches_ok_events_and_aborts_otherwise [] ServerImpl.started rfl
    { tag := 1, ok := true, name := "world" } (.RequestSayHello 1) rfl).1 rfl

/-! ## The client -/

theorem surfaced_append (l1 l2 : List ClientAction) :
    surfaced (l1 ++ l2) = surfaced l1 ++ surfaced l2 := by
  simp [surfaced, List.filterMap_append]

theorem surfaced_readTrace (call : Tag) (type : String) (ms : List String) :
    surfaced (readTrace call type ms) = ms := by
  induction ms with
  | nil => rfl
  | cons m ms ih =>
    simp only [surfaced, readTrace, List.filterMap_cons, ClientAction.printed?] at ih ⊢
    rw [ih]

theorem filter_isFinish_readTrace (call : Tag) (type : String) (ms : List String) :
    (readTrace call type ms).filter ClientAction.isFinish = [] := by
  induction ms with
  | nil => rfl
  | cons m ms ih =>
    simp only [readTrace, List.filter_cons, ClientAction.isFinish] at ih ⊢
    simpa using ih

theorem GreeterClient.AsyncCompleteRpc_append (es1 es2 : List ClientCompletion) :
    ∀ g : GreeterClient, g.AsyncCompleteRpc (es1 ++ es2) =
      match g.AsyncCompleteRpc es1 with
      | .error f => .error f
      | .ok g1 => g1.AsyncCompleteRpc es2 := by
  induction es1 with
  | nil =>
    intro g
    rfl
  | cons e es1 ih =>
    intro g
    simp only [List.cons_append, GreeterClient.AsyncCompleteRpc]
    cases g.dispatch e with
    | error f => rfl
    | ok g1 => exact ih g1

/-- A `ReadStreamClientCall` in `PROCESS` that is handed the messages `ms`, one completed
read each, stays in `PROCESS` and does `readTrace`. -/
theorem GreeterClient.read_messages (call : Tag) (ms : List String) :
    ∀ (g : GreeterClient) (c : ReadStreamClientCall),
      g.heap call = some (.readStream c) → c.callStatus = .PROCESS →
      ∃ g1 c1, g.AsyncCompleteRpc
          (ms.map fun m => { tag := call, ok := true, reply := some m, status := none }) =
            .ok g1 ∧
        g1.heap call = some (.readStream c1) ∧ c1.callStatus = .PROCESS ∧
        c1.client_type = c.client_type ∧
        g1.trace = g.trace ++ readTrace call c.client_type ms ∧ g1.self = g.self := by
  induction ms with
  | nil =>
    intro g c hc hs
    exact ⟨g, c, rfl, hc, hs, rfl, by simp [readTrace], rfl⟩
  | cons m ms ih =>
    intro g c hc hs
    have hd : g.dispatch { tag := call, ok := true, reply := some m, status := none } =
        .ok { g with
          heap := Function.update g.heap call
            (some (.readStream { c with reply := m })),
          trace := g.trace ++ [.Read call call, .PrintReply c.client_type m] } := by
      simp [GreeterClient.dispatch, hc, ClientObj.store, ClientAsyncCall.store,
        ClientObj.Proceed, ReadStreamClientCall.Proceed, hs, GreeterClient.perform,
        ClientAsyncCall.PrintReply]
    obtain ⟨g1, c1, hrun, hh, hs1, ht1, htr, hself⟩ :=
      ih { g with
          heap := Function.update g.heap call
            (some (.readStream { c with reply := m })),
          trace := g.trace ++ [.Read call call, .PrintReply c.client_type m] }
        { c with reply := m } (by simp) hs
    refine ⟨g1, c1, ?_, hh, hs1, ht1, ?_, hself⟩
    · simp only [List.map_cons, GreeterClient.AsyncCompleteRpc, hd]
      exact hrun
    · rw [htr]
      simp [readTrace]

/-- The whole life of a streaming call up to the end of the stream: created by
`SayHelloAndListenToGreeter`, then handed the events of a server stream that delivers `ms`
and ends. -/
theorem GreeterClient.stream_call (g : GreeterClient) (user : String) (ms : List String) :
    ∃ g1 c1, (g.SayHelloAndListenToGreeter user).AsyncCompleteRpc
        (streamEvents g.nextAddr ms) = .ok g1 ∧
      g1.heap g.nextAddr = some (.readStream c1) ∧ c1.callStatus = .FINISH ∧
      g1.trace = g.trace ++
        [.PrepareAsyncSayHelloStreamReply g.nextAddr user,
         .StartCallTagged g.nextAddr g.nextAddr, .Finish g.nextAddr g.self] ++
        [.Read g.nextAddr g.nextAddr, .PrintReply "Read Stream Client" ""] ++
        readTrace g.nextAddr "Read Stream Client" ms ++
        [.Finish g.nextAddr g.nextAddr] := by
  -- the event that reports the start of the call
  have hstart : (g.SayHelloAndListenToGreeter user).dispatch
      { tag := g.nextAddr, ok := true, reply := none, status := none } =
        .ok { g with
          heap := Function.update g.heap g.nextAddr
            (some (.readStream ReadStreamClientCall.init)),
          nextAddr := g.nextAddr + 1,
          trace := g.trace ++
            [.PrepareAsyncSayHelloStreamReply g.nextAddr user,
             .StartCallTagged g.nextAddr g.nextAddr, .Finish g.nextAddr g.self] ++
            [.Read g.nextAddr g.nextAddr, .PrintReply "Read Stream Client" ""] } := by
    simp [GreeterClient.dispatch, GreeterClient.SayHelloAndListenToGreeter,
      ClientObj.store, ClientAsyncCall.store, ClientObj.Proceed,
      ReadStreamClientCall.Proceed, ReadStreamClientCall.init, ClientAsyncCall.init,
      GreeterClient.perform, ClientAsyncCall.PrintReply]
  obtain ⟨g1, c1, hrun, hh, hs1, ht1, htr, hself⟩ :=
    GreeterClient.read_messages g.nextAddr ms
      { g with
          heap := Function.update g.heap g.nextAddr
            (some (.readStream ReadStreamClientCall.init)),
          nextAddr := g.nextAddr + 1,
          trace := g.trace ++
            [.PrepareAsyncSayHelloStreamReply g.nextAddr user,
             .StartCallTagged g.nextAddr g.nextAddr, .Finish g.nextAddr g.self] ++
            [.Read g.nextAddr g.nextAddr, .PrintReply "Read Stream Client" ""] }
      ReadStreamClientCall.init (by simp) rfl
  have hend : g1.dispatch { tag := g.nextAddr, ok := false, reply := none, status := none } =
      .ok { g1 with
        heap := Function.update g1.heap g.nextAddr
          (some (.readStream { c1 with callStatus := .FINISH })),
        trace := g1.trace ++ [.Finish g.nextAddr g.nextAddr] } := by
    simp [GreeterClient.dispatch, hh, ClientObj.store, ClientAsyncCall.store,
      ClientObj.Proceed, ReadStreamClientCall.Proceed, hs1, GreeterClient.perform]
  refine ⟨{ g1 with
        heap := Function.update g1.heap g.nextAddr
          (some (.readStream { c1 with callStatus := .FINISH })),
        trace := g1.trace ++ [.Finish g.nextAddr g.nextAddr] },
    { c1 with callStatus := .FINISH }, ?_, ?_, rfl, ?_⟩
  · unfold streamEvents
    rw [List.append_assoc, List.singleton_append, GreeterClient.AsyncCompleteRpc, hstart]
    simp only []
    rw [GreeterClient.AsyncCompleteRpc_append, hrun]
    simp only [GreeterClient.AsyncCompleteRpc, hend]
  · simp
  · show g1.trace ++ _ = _
    rw [htr]
    rfl

/-! ## The claims about the client -/

/-- C5: `SayHello` creates one `RPCClientCall` in `PROCESS` at a new address and registers
one finish operation, but the tag of that operation is the address of the `GreeterClient`
itself (`this`), not that of the new call object; at the input `"world"` with the client at
address 100 the tag is 100 while the call object is at 101, and the event carrying tag 100
cannot be dispatched to a call object. -/
theorem C5_sayHello_tags_finish_with_client (g : GreeterClient) (user : String) :
    (g.SayHello user).heap g.nextAddr = some (.rpc RPCClientCall.init) ∧
    RPCClientCall.init.callStatus = .PROCESS ∧
    (g.SayHello user).trace = g.trace ++
      [.PrepareAsyncSayHello g.nextAddr user, .StartCall g.nextAddr,
       .Finish g.nextAddr g.self] ∧
    ((GreeterClient.init 100).SayHello "world").trace.filter ClientAction.isFinish =
      [.Finish 101 100] ∧
    ((GreeterClient.init 100).SayHello "world").AsyncCompleteRpc
      [{ tag := 100, ok := true, reply := some "Helloworld", status := some .OK }] =
        .error .badTag := by
  refine ⟨?_, rfl, rfl, by decide, rfl⟩
  simp only [GreeterClient.SayHello, Function.update_same]
  rfl

/-- C6, as stated, fails at the scenario of the specification: for the four messages the
server streams to `"sasha"`, the client surfaces five lines, the first one showing the
reply buffer before any message has arrived. -/
theorem C6_client_surfaces_an_extra_empty_reply :
    ∃ g1, ((GreeterClient.init 100).SayHelloAndListenToGreeter "sasha").AsyncCompleteRpc
        (streamEvents 101
          ["Hellosasha!", "How are you doing?", "How can I assist you today?",
           "I'm a server ID 0x2"]) = .ok g1 ∧
      surfaced g1.trace =
        ["", "Hellosasha!", "How are you doing?", "How can I assist you today?",
         "I'm a server ID 0x2"] ∧
      surfaced g1.trace ≠
        ["Hellosasha!", "How are you doing?", "How can I assist you today?",
         "I'm a server ID 0x2"] :=
  ⟨_, rfl, by decide, by decide⟩

/-- C6, amended: for every server stream that delivers the messages `ms` and then ends, the
call created by `SayHelloAndListenToGreeter` surfaces first the empty reply buffer (on the
event that reports the start of the call) and then exactly the messages `ms`, in order; it
is then in `FINISH`, and the finish issued on the end of the stream is the last thing it
did. -/
theorem C6_client_surfaces_empty_reply_then_messages (g : GreeterClient) (user : String)
    (ms : List String) :
    ∃ g1, (g.SayHelloAndListenToGreeter user).AsyncCompleteRpc
        (streamEvents g.nextAddr ms) = .ok g1 ∧
      surfaced g1.trace = surfaced g.trace ++ "" :: ms ∧
      (∃ c1, g1.heap g.nextAddr = some (.readStream c1) ∧ c1.callStatus = .FINISH) ∧
      g1.trace.getLast? = some (.Finish g.nextAddr g.nextAddr) := by
  obtain ⟨g1, c1, hrun, hh, hs, htr⟩ := GreeterClient.stream_call g user ms
  refine ⟨g1, hrun, ?_, ⟨c1, hh, hs⟩, ?_⟩
  · rw [htr]
    simp only [surfaced_append, surfaced_readTrace]
    simp [surfaced, ClientAction.printed?]
  · rw [htr, List.getLast?_append]
    rfl

/-- C7: a `ReadStreamClientCall` in `PROCESS` that receives an event with `ok = true` issues
exactly one operation, a read tagged with its own address, issues no finish and stays in
`PROCESS`; in `FINISH`, every event makes it delete itself and issue nothing. -/
theorem C7_readStream_reads_in_process_and_releases_in_finish (this : Tag)
    (c : ReadStreamClientCall) :
    (c.callStatus = .PROCESS →
      (c.Proceed this true).2.filter ClientAction.isOp = [.Read this this] ∧
      (c.Proceed this true).2.filter ClientAction.isFinish = [] ∧
      (c.Proceed this true).1.callStatus = .PROCESS) ∧
    (c.callStatus = .FINISH →
      ∀ ok, (c.Proceed this ok).2 = [.Delete this] ∧
        (c.Proceed this ok).2.filter ClientAction.isOp = []) := by
  constructor
  · intro hs
    simp [ReadStreamClientCall.Proceed, hs, ClientAction.isOp, ClientAction.isFinish,
      ClientAsyncCall.PrintReply]
  · intro hs ok
    simp [ReadStreamClientCall.Proceed, hs, ClientAction.isOp]

/-- C7 at the call object `SayHelloAndListenToGreeter` creates, placed at address 101. -/
theorem C7_readStream_reads_in_process_and_releases_in_finish_witness :
    ((ReadStreamClientCall.init.Proceed 101 true).2.filter ClientAction.isOp =
        [.Read 101 101] ∧
      (ReadStreamClientCall.init.Proceed 101 true).2.filter ClientAction.isFinish = [] ∧
      (ReadStreamClientCall.init.Proceed 101 true).1.callStatus = .PROCESS) ∧
    (∀ ok, (({ ReadStreamClientCall.init with callStatus := .FINISH } :
          ReadStreamClientCall).Proceed 101 ok).2 = [.Delete 101] ∧
        (({ ReadStreamClientCall.init with callStatus := .FINISH } :
          ReadStreamClientCall).Proceed 101 ok).2.filter ClientAction.isOp = []) :=
  ⟨(C7_readStream_reads_in_process_and_releases_in_finish 101
      ReadStreamClientCall.init).1 rfl,
   (C7_readStream_reads_in_process_and_releases_in_finish 101
      { ReadStreamClientCall.init with callStatus := .FINISH }).2 rfl⟩

/-- C8: over the life of a streaming call two finish operations are submitted, not one: the
first by `SayHelloAndListenToGreeter` itself, before any event and tagged with the address
of the `GreeterClient`, the second by `Proceed` on the `ok = false` event that ends the
stream. -/
theorem C8_stream_call_submits_two_finishes (self : Tag) (user : String)
    (ms : List String) :
    ((GreeterClient.init self).SayHelloAndListenToGreeter user).trace.filter
        ClientAction.isFinish = [.Finish (self + 1) self] ∧
    ∃ g1, ((GreeterClient.init self).SayHelloAndListenToGreeter user).AsyncCompleteRpc
        (streamEvents (self + 1) ms) = .ok g1 ∧
      g1.trace.filter ClientAction.isFinish =
        [.Finish (self + 1) self, .Finish (self + 1) (self + 1)] := by
  constructor
  · simp [GreeterClient.SayHelloAndListenToGreeter, GreeterClient.init,
      ClientAction.isFinish]
  · obtain ⟨g1, c1, hrun, -, -, htr⟩ :=
      GreeterClient.stream_call (GreeterClient.init self) user ms
    refine ⟨g1, hrun, ?_⟩
    rw [htr]
    simp only [List.filter_append, filter_isFinish_readTrace]
    simp [GreeterClient.init, ClientAction.isFinish]

/-! ## Events with `ok = false` on the server -/

/-- C9, as stated, fails: handed `ok = false` in `PROCESS`, the `CallData` with request
name `"world"` computes the reply `"Helloworld"` and finishes with status OK, and the
`CallDataWriter` with request name `"sasha"` issues its first write. -/
theorem C9_ok_false_still_does_the_work :
    (({ CallData.init with request_ := "world", status_ := .PROCESS } :
        CallData).Proceed 7 false) =
      ({ CallData.init with request_ := "world", reply_ := "Helloworld", status_ := .FINISH },
       [.NewCallData, .Finish "Helloworld" .OK 7]) ∧
    ((({ CallDataWriter.init with status_ := .PROCESS, request_ := "sasha" } :
        CallDataWriter).Proceed 7 false).map fun r => (r.1.status_, r.2)) =
      some (.PROCESS, [.NewCallDataWriter, .Write "Hellosasha!" 7]) := by
  constructor <;> decide

/-- C9, amended: `Proceed` of both server call states does not look at `ok`; an event with
`ok = false` in `PROCESS` is handled like one with `ok = true`.  The `CallData` computes the
reply, moves to `FINISH` and issues the finish with status OK.  The `CallDataWriter` issues
the next write and stays in `PROCESS` while its cursor is below the end of the messages
(on the first entry, after `InitMessages`), and moves to `FINISH`, issuing the finish with
status OK, only when the cursor has reached the end. -/
theorem C9_ok_false_handled_like_ok_true (this : Tag) (c : CallData) (w : CallDataWriter)
    (hc : c.status_ = .PROCESS) (hw : w.status_ = .PROCESS) :
    c.Proceed this false = c.Proceed this true ∧
    (c.Proceed this false).1.status_ = .FINISH ∧
    (c.Proceed this false).1.reply_ = c.prefix_ ++ c.request_ ∧
    (c.Proceed this false).2.filter Action.isOp =
      [.Finish (c.prefix_ ++ c.request_) .OK this] ∧
    w.Proceed this false = w.Proceed this true ∧
    (w.count_ = 0 →
      ∃ m, (w.Proceed this false).map (fun r => (r.1.status_, r.2.filter Action.isOp)) =
        some (.PROCESS, [.Write m this])) ∧
    (w.count_ ≠ 0 → toSizeT w.count_ < w.messages_.length →
      ∃ m, vectorAt w.messages_ (toSizeT w.count_) = some m ∧
        (w.Proceed this false).map (fun r => (r.1.status_, r.2.filter Action.isOp)) =
          some (.PROCESS, [.Write m this])) ∧
    (w.count_ ≠ 0 → w.messages_.length ≤ toSizeT w.count_ →
      (w.Proceed this false).map (fun r => (r.1.status_, r.2.filter Action.isOp)) =
        some (.FINISH, [.FinishWriter .OK this])) := by
  have t0 : toSizeT 0 = 0 := by decide
  refine ⟨rfl, ?_, ?_, ?_, rfl, ?_, ?_, ?_⟩
  · simp [CallData.Proceed, hc]
  · simp [CallData.Proceed, hc]
  · simp [CallData.Proceed, hc, Action.isOp, Action.tag?]
  · intro h0
    cases hf : w.new_responder_created_ <;>
      cases hm : w.messages_ <;>
        simp [CallDataWriter.Proceed, hw, h0, hf, hm, CallDataWriter.InitMessages, vectorAt,
          t0, Action.isOp, Action.tag?]
  · intro hn hlt
    have hnle : ¬ w.messages_.length ≤ toSizeT w.count_ := Nat.not_le.mpr hlt
    refine ⟨w.messages_[toSizeT w.count_], ?_⟩
    cases hf : w.new_responder_created_ <;>
      simp [CallDataWriter.Proceed, hw, hn, hf, vectorAt, hlt, hnle, Action.isOp,
        Action.tag?]
  · intro hn hle
    cases hf : w.new_responder_created_ <;>
      simp [CallDataWriter.Proceed, hw, hn, hf, hle, Action.isOp, Action.tag?]

/-- C9, amended, at a `CallData` with request name `"world"` and at a `CallDataWriter` that
has written two of its four messages. -/
theorem C9_ok_false_handled_like_ok_true_witness :
    (({ CallData.init with request_ := "world", status_ := .PROCESS } :
        CallData).Proceed 7 false).2.filter Action.isOp = [.Finish "Helloworld" .OK 7] ∧
    ∃ m,
      vectorAt ["Hellosasha!", "How are you doing?", "How can I assist you today?",
        "I'm a server ID 0x8"] (toSizeT 2) = some m ∧
      (({ ctx_ := { cancelled := false }, request_ := "sasha", reply_ := "How are you doing?",
          status_ := .PROCESS, prefix_ := "Hello", count_ := 2, new_responder_created_ := true,
          messages_ := ["Hellosasha!", "How are you doing?", "How can I assist you today?",
            "I'm a server ID 0x8"] } : CallDataWriter).Proceed 8 false).map
        (fun r => (r.1.status_, r.2.filter Action.isOp)) =
          some (.PROCESS, [.Write m 8]) :=
  ⟨(C9_ok_false_handled_like_ok_true 7
      { CallData.init with request_ := "world", status_ := .PROCESS }
      { ctx_ := { cancelled := false }, request_ := "sasha", reply_ := "How are you doing?",
        status_ := .PROCESS, prefix_ := "Hello", count_ := 2, new_responder_created_ := true,
        messages_ := ["Hellosasha!", "How are you doing?", "How can I assist you today?",
          "I'm a server ID 0x8"] } rfl rfl).2.2.2.1,
   (C9_ok_false_handled_like_ok_true 8
      { CallData.init with request_ := "world", status_ := .PROCESS }
      { ctx_ := { cancelled := false }, request_ := "sasha", reply_ := "How are you doing?",
        status_ := .PROCESS, prefix_ := "Hello", count_ := 2, new_responder_created_ := true,
        messages_ := ["Hellosasha!", "How are you doing?", "How can I assist you today?",
          "I'm a server ID 0x8"] } rfl rfl).2.2.2.2.2.2.1 (by decide) (by decide)⟩

/-! ## The life of one server-streaming call state -/

theorem vectorAt_lt {v : List String} {i : Nat} (h : i < v.length) :
    vectorAt v i = some v[i] := by
  simp [vectorAt, h]

/-- `messages_.at(count_)` never throws: `CallDataWriter::Proceed` returns for every object,
every address and every flag. -/
theorem CallDataWriter.Proceed_total (this : Tag) (ok : Bool) (w : CallDataWriter) :
    ∃ r, w.Proceed this ok = some r := by
  unfold CallDataWriter.Proceed
  cases hs : w.status_ with
  | CREATE => exact ⟨_, rfl⟩
  | FINISH => exact ⟨_, rfl⟩
  | PROCESS =>
    simp only []
    split_ifs with h1 h2 h3 h4 h5 h6
    all_goals first
      | exact ⟨_, rfl⟩
      | (rw [vectorAt_lt (Nat.lt_of_not_le ‹_›)]; exact ⟨_, rfl⟩)

/-- The first `PROCESS` entry of a `CallDataWriter` as its constructor left it, the request
name `n` stored by the runtime: the successor is spawned, `InitMessages` builds the four
messages, and the first of them is written. -/
theorem CallDataWriter.first_entry (this : Tag) (ok : Bool) (n : String) :
    ({ CallDataWriter.init with status_ := .PROCESS, request_ := n } :
        CallDataWriter).Proceed this ok =
      some ({ CallDataWriter.init with
                status_ := .PROCESS, request_ := n, reply_ := "Hello" ++ n ++ "!",
                count_ := 1, new_responder_created_ := true,
                messages_ := fourMessages this n },
            [.NewCallDataWriter, .Write ("Hello" ++ n ++ "!") this]) := by
  have t0 : toSizeT 0 = 0 := by decide
  have hpfx : CallDataBase.init.prefix_ = "Hello" := rfl
  simp [CallDataWriter.Proceed, CallDataWriter.InitMessages, CallDataWriter.init, vectorAt,
    t0, hpfx, fourMessages]

/-- One event handed to a `CallDataWriter` that has made its first `PROCESS` entry: it
writes the message at the cursor and advances, or (cursor at 4) issues the finish and moves
to `FINISH`, or (in `FINISH`) deletes itself.  The messages are left as they are. -/
theorem CallDataWriter.Streaming.step {this : Tag} {n : String} {w : CallDataWriter}
    (h : w.Streaming this n) (ok : Bool) :
    ∃ r, w.Proceed this ok = some r ∧ r.1.Streaming this n ∧
      ((∃ m, r.2 = [.Write m this] ∧ w.status_ = .PROCESS ∧ r.1.status_ = .PROCESS ∧
          r.1.count_ = w.count_ + 1) ∨
       (r.2 = [.FinishWriter .OK this] ∧ w.status_ = .PROCESS ∧ w.count_ = 4 ∧
          r.1.status_ = .FINISH) ∨
       (r.2 = [.Delete this] ∧ w.status_ = .FINISH ∧ r.1 = w)) := by
  obtain ⟨hm, hf, h1, h4, hst⟩ := h
  have hlen : w.messages_.length = 4 := by rw [hm]; rfl
  have hne : w.count_ ≠ 0 := by omega
  have hts : toSizeT w.count_ = w.count_.toNat := toSizeT_small _ (by omega) h4
  rcases hst with hs | ⟨hs, hc⟩
  · by_cases hc3 : w.count_ ≤ 3
    · have hlt : w.count_.toNat < w.messages_.length := by omega
      have hnle : ¬ w.messages_.length ≤ w.count_.toNat := by omega
      refine ⟨({ w with reply_ := w.messages_[w.count_.toNat], count_ := w.count_ + 1 },
        [.Write w.messages_[w.count_.toNat] this]), ?_, ?_, Or.inl ⟨_, rfl, hs, hs, rfl⟩⟩
      · simp [CallDataWriter.Proceed, hs, hf, hne, vectorAt, hts, hlt, hnle]
      · refine ⟨hm, hf, ?_, ?_, Or.inl hs⟩
        · show 1 ≤ w.count_ + 1
          omega
        · show w.count_ + 1 ≤ 4
          omega
    · have hc : w.count_ = 4 := by omega
      have t4 : toSizeT 4 = 4 := by decide
      refine ⟨({ w with status_ := .FINISH }, [.FinishWriter .OK this]), ?_, ?_,
        Or.inr (Or.inl ⟨rfl, hs, hc, rfl⟩)⟩
      · simp [CallDataWriter.Proceed, hs, hf, hc, hlen, t4]
      · exact ⟨hm, hf, h1, h4, Or.inr ⟨rfl, hc⟩⟩
  · refine ⟨(w, [.Delete this]), ?_, ⟨hm, hf, h1, h4, Or.inr ⟨hs, hc⟩⟩,
      Or.inr (Or.inr ⟨rfl, hs, rfl⟩)⟩
    simp [CallDataWriter.Proceed, hs]

/-- Any events handed to a `CallDataWriter` that has made its first `PROCESS` entry: the run
returns, the object keeps its four messages and its cursor between 1 and 4, no successor is
spawned, and every effect is a write, a finish or the deletion. -/
theorem CallDataWriter.Streaming.drive {this : Tag} {n : String} (oks : List Bool) :
    ∀ {w : CallDataWriter}, w.Streaming this n →
      ∃ r, CallDataWriter.drive this w oks = some r ∧ r.1.Streaming this n ∧
        Action.NewCallDataWriter ∉ r.2 := by
  induction oks with
  | nil =>
    intro w h
    exact ⟨(w, []), rfl, h, by simp⟩
  | cons ok oks ih =>
    intro w h
    obtain ⟨r, hr, hst, hcase⟩ := h.step ok
    obtain ⟨r1, w1⟩ := r
    simp only [CallDataWriter.drive, hr]
    rcases hcase with ⟨m, hacts, -, -, -⟩ | ⟨hacts, -, -, -⟩ | ⟨hacts, -, -⟩
    · simp only at hacts
      subst hacts
      obtain ⟨r2, hr2, hst2, hno⟩ := ih hst
      refine ⟨(r2.1, [.Write m this] ++ r2.2), ?_, hst2, ?_⟩
      · simp [hr2]
      · simpa using hno
    · simp only at hacts
      subst hacts
      obtain ⟨r2, hr2, hst2, hno⟩ := ih hst
      refine ⟨(r2.1, [.FinishWriter .OK this] ++ r2.2), ?_, hst2, ?_⟩
      · simp [hr2]
      · simpa using hno
    · simp only at hacts
      subst hacts
      exact ⟨(r1, [.Delete this]), by simp, hst, by simp⟩

/-- A `PROCESS` entry with the cursor below the end of the messages (after `InitMessages`,
when the cursor is 0): the message at the cursor is written, the cursor advances, the
object stays in `PROCESS`; a successor is spawned first when the flag is clear. -/
theorem CallDataWriter.Proceed_write (this : Tag) (ok : Bool) (w : CallDataWriter)
    (hs : w.status_ = .PROCESS)
    (hlt : toSizeT w.count_ <
      (if w.count_ = 0 then w.InitMessages this w.request_ else w).messages_.length) :
    ∃ m, vectorAt (if w.count_ = 0 then w.InitMessages this w.request_ else w).messages_
        (toSizeT w.count_) = some m ∧
      w.Proceed this ok =
        some ({ w with
                  reply_ := m, count_ := w.count_ + 1, new_responder_created_ := true,
                  messages_ :=
                    (if w.count_ = 0 then w.InitMessages this w.request_ else w).messages_ },
              (if w.new_responder_created_ then [] else [.NewCallDataWriter]) ++
                [.Write m this]) := by
  refine ⟨_, vectorAt_lt hlt, ?_⟩
  obtain ⟨⟨ctx, req, rep, st, pfx⟩, cnt, flag, msgs⟩ := w
  simp only at hs hlt ⊢
  subst hs
  have hnle := Nat.not_le.mpr hlt
  cases flag <;> by_cases hc : cnt = 0 <;>
    simp [CallDataWriter.Proceed, CallDataWriter.InitMessages, hc] at hlt hnle ⊢ <;>
    simp [vectorAt, hlt, hnle]

/-- A `PROCESS` entry with the cursor at or beyond the end of the messages: the finish is
issued with status OK and the object moves to `FINISH`; a successor is spawned first when
the flag is clear. -/
theorem CallDataWriter.Proceed_finish (this : Tag) (ok : Bool) (w : CallDataWriter)
    (hs : w.status_ = .PROCESS)
    (hle : (if w.count_ = 0 then w.InitMessages this w.request_ else w).messages_.length ≤
      toSizeT w.count_) :
    w.Proceed this ok =
      some ({ w with
                status_ := .FINISH, new_responder_created_ := true,
                messages_ :=
                  (if w.count_ = 0 then w.InitMessages this w.request_ else w).messages_ },
            (if w.new_responder_created_ then [] else [.NewCallDataWriter]) ++
              [.FinishWriter .OK this]) := by
  obtain ⟨⟨ctx, req, rep, st, pfx⟩, cnt, flag, msgs⟩ := w
  simp only at hs hle ⊢
  subst hs
  cases flag <;> by_cases hc : cnt = 0 <;>
    simp [CallDataWriter.Proceed, CallDataWriter.InitMessages, hc] at hle ⊢ <;>
    simp [hle]

/-- The whole life of a `CallDataWriter` from its first `PROCESS` entry on, for any events
with any flags: the first entry spawns the successor and writes the first message; what
follows keeps the four messages and spawns nothing. -/
theorem CallDataWriter.drive_accepted (this : Tag) (n : String) (ok : Bool)
    (oks : List Bool) :
    ∃ r : CallDataWriter × List Action, CallDataWriter.drive this
        { CallDataWriter.init with status_ := .PROCESS, request_ := n } (ok :: oks) =
          some (r.1, [.NewCallDataWriter, .Write ("Hello" ++ n ++ "!") this] ++ r.2) ∧
      r.1.Streaming this n ∧ Action.NewCallDataWriter ∉ r.2 := by
  have hst : ({ CallDataWriter.init with
        status_ := .PROCESS, request_ := n, reply_ := "Hello" ++ n ++ "!",
        count_ := 1, new_responder_created_ := true,
        messages_ := fourMessages this n } : CallDataWriter).Streaming this n := by
    refine ⟨rfl, rfl, le_refl _, ?_, Or.inl rfl⟩
    show (1 : Int) ≤ 4
    decide
  obtain ⟨r, hr, hs, hno⟩ := CallDataWriter.Streaming.drive oks hst
  refine ⟨r, ?_, hs, hno⟩
  simp [CallDataWriter.drive, CallDataWriter.first_entry, hr]

/-- Every outcome of `CallDataWriter::Proceed`, by the phase the object is in. -/
theorem CallDataWriter.Proceed_cases (this : Tag) (ok : Bool) (w : CallDataWriter) :
    (w.status_ = .CREATE ∧
      w.Proceed this ok =
        some ({ w with status_ := .PROCESS }, [.RequestSayHelloStreamReply this])) ∨
    (w.status_ = .PROCESS ∧ ∃ m,
      toSizeT w.count_ <
        (if w.count_ = 0 then w.InitMessages this w.request_ else w).messages_.length ∧
      vectorAt (if w.count_ = 0 then w.InitMessages this w.request_ else w).messages_
        (toSizeT w.count_) = some m ∧
      w.Proceed this ok =
        some ({ w with
                  reply_ := m, count_ := w.count_ + 1, new_responder_created_ := true,
                  messages_ :=
                    (if w.count_ = 0 then w.InitMessages this w.request_ else w).messages_ },
              (if w.new_responder_created_ then [] else [.NewCallDataWriter]) ++
                [.Write m this])) ∨
    (w.status_ = .PROCESS ∧
      (if w.count_ = 0 then w.InitMessages this w.request_ else w).messages_.length ≤
        toSizeT w.count_ ∧
      w.Proceed this ok =
        some ({ w with
                  status_ := .FINISH, new_responder_created_ := true,
                  messages_ :=
                    (if w.count_ = 0 then w.InitMessages this w.request_ else w).messages_ },
              (if w.new_responder_created_ then [] else [.NewCallDataWriter]) ++
                [.FinishWriter .OK this])) ∨
    (w.status_ = .FINISH ∧ w.Proceed this ok = some (w, [.Delete this])) := by
  have h3 : w.status_ = .CREATE ∨ w.status_ = .PROCESS ∨ w.status_ = .FINISH := by
    cases w.status_ <;> simp
  rcases h3 with hs | hs | hs
  · left
    exact ⟨hs, by simp [CallDataWriter.Proceed, hs]⟩
  · right
    rcases Nat.lt_or_ge (toSizeT w.count_)
      (if w.count_ = 0 then w.InitMessages this w.request_ else w).messages_.length
      with hlt | hle
    · left
      obtain ⟨m, hat, hm⟩ := CallDataWriter.Proceed_write this ok w hs hlt
      exact ⟨hs, m, hlt, hat, hm⟩
    · right; left
      exact ⟨hs, hle, CallDataWriter.Proceed_finish this ok w hs hle⟩
  · right; right; right
    exact ⟨hs, by simp [CallDataWriter.Proceed, hs]⟩

/-- C15: the constructor of a `CallDataWriter` clears the one-shot flag and spawns nothing;
over any events handed to the object once it has accepted a call (any flags, any number),
exactly one successor `CallDataWriter` is created, as the first effect of the first
`PROCESS` entry; and an entry made with the flag set creates none and leaves the flag
set. -/
theorem C15_writer_spawns_one_successor_on_first_entry (this : Tag) (n : String) (ok : Bool)
    (oks : List Bool) :
    CallDataWriter.init.new_responder_created_ = false ∧
    (CallDataWriter.ctor this).map (fun r => r.2) =
      some [.RequestSayHelloStreamReply this] ∧
    (∃ r, CallDataWriter.drive this
        { CallDataWriter.init with status_ := .PROCESS, request_ := n } (ok :: oks) =
          some r ∧
      r.2.head? = some .NewCallDataWriter ∧
      r.2.count .NewCallDataWriter = 1) ∧
    (∀ w : CallDataWriter, ∃ r,
      ({ w with new_responder_created_ := true } : CallDataWriter).Proceed this ok =
        some r ∧
      r.2.count .NewCallDataWriter = 0 ∧ r.1.new_responder_created_ = true) := by
  refine ⟨rfl, rfl, ?_, ?_⟩
  · obtain ⟨r, hr, -, hno⟩ := CallDataWriter.drive_accepted this n ok oks
    refine ⟨_, hr, rfl, ?_⟩
    have h0 : r.2.count Action.NewCallDataWriter = 0 := List.count_eq_zero.2 hno
    simp [List.count_cons, h0]
  · intro w
    rcases CallDataWriter.Proceed_cases this ok
        ({ w with new_responder_created_ := true } : CallDataWriter) with
      ⟨-, h⟩ | ⟨-, m, -, -, h⟩ | ⟨-, -, h⟩ | ⟨-, h⟩
    · exact ⟨_, h, by simp, rfl⟩
    · exact ⟨_, h, by simp, rfl⟩
    · exact ⟨_, h, by simp, rfl⟩
    · exact ⟨_, h, by simp, rfl⟩

/-- C17: the messages of a `CallDataWriter` are built once.  As the constructor leaves it the
vector is empty; after the first `PROCESS` entry and after any further events (any flags,
any number) it is what one call of `InitMessages` builds, four elements; the cursor is never
0 again, and an entry with a cursor other than 0 does not call `InitMessages`: it leaves
`messages_` as it is. -/
theorem C17_messages_built_once_on_first_entry (this : Tag) (n : String) (ok : Bool)
    (oks : List Bool) :
    ({ CallDataWriter.init with status_ := .PROCESS, request_ := n } :
        CallDataWriter).messages_ = [] ∧
    (∃ r, CallDataWriter.drive this
        { CallDataWriter.init with status_ := .PROCESS, request_ := n } (ok :: oks) =
          some r ∧
      r.1.messages_ = (CallDataWriter.InitMessages this n
        { CallDataWriter.init with status_ := .PROCESS, request_ := n }).messages_ ∧
      r.1.messages_ = fourMessages this n ∧
      r.1.messages_.length = 4 ∧ r.1.count_ ≠ 0) ∧
    (∀ w : CallDataWriter, w.count_ ≠ 0 →
      ∃ r, w.Proceed this ok = some r ∧ r.1.messages_ = w.messages_) := by
  refine ⟨rfl, ?_, ?_⟩
  · obtain ⟨r, hr, hst, -⟩ := CallDataWriter.drive_accepted this n ok oks
    obtain ⟨hm, -, h1, -, -⟩ := hst
    refine ⟨_, hr, ?_, hm, ?_, ?_⟩
    · rw [hm]
      rfl
    · rw [hm]
      rfl
    · show r.1.count_ ≠ 0
      omega
  · intro w hc
    rcases CallDataWriter.Proceed_cases this ok w with
      ⟨-, h⟩ | ⟨-, m, -, -, h⟩ | ⟨-, -, h⟩ | ⟨-, h⟩
    · exact ⟨_, h, rfl⟩
    · exact ⟨_, h, by simp [hc]⟩
    · exact ⟨_, h, by simp [hc]⟩
    · exact ⟨_, h, rfl⟩

/-- C17 on the object of the `"sasha"` scenario after two writes, at address 8. -/
theorem C17_messages_built_once_on_first_entry_witness :
    ∃ r, ({ ctx_ := { cancelled := false }, request_ := "sasha",
            reply_ := "How are you doing?", status_ := .PROCESS, prefix_ := "Hello",
            count_ := 2, new_responder_created_ := true,
            messages_ := fourMessages 8 "sasha" } : CallDataWriter).Proceed 8 true =
        some r ∧
      r.1.messages_ = fourMessages 8 "sasha" :=
  (C17_messages_built_once_on_first_entry 8 "sasha" true []).2.2
    { ctx_ := { cancelled := false }, request_ := "sasha",
      reply_ := "How are you doing?", status_ := .PROCESS, prefix_ := "Hello",
      count_ := 2, new_responder_created_ := true,
      messages_ := fourMessages 8 "sasha" } (by decide)

/-- C20: `messages_.at(count_)` never throws, whatever the object, the event and its flag;
a write is issued only with the index strictly below `messages_.size()`; over any events
with any flags handed to a `CallDataWriter` from the state its constructor left it in, the
cursor stays between 0 and 4; and so it does for every `CallDataWriter` in every state
`HandleRpcs` reaches. -/
theorem C20_cursor_in_range_and_at_never_throws (this : Tag) (n : String)
    (oks : List Bool) (es : List Completion) (sv : ServerImpl)
    (h : ServerImpl.run es = .ok sv) (t : Tag) (w : CallDataWriter)
    (hw : sv.heap t = some (.callDataWriter w)) :
    (∀ (ok : Bool) (w1 : CallDataWriter), ∃ r, w1.Proceed this ok = some r) ∧
    (∀ (ok : Bool) (w1 : CallDataWriter) r m, w1.Proceed this ok = some r →
      Action.Write m this ∈ r.2 →
        toSizeT w1.count_ < r.1.messages_.length ∧
        vectorAt r.1.messages_ (toSizeT w1.count_) = some m) ∧
    (∃ r, CallDataWriter.drive this
        { CallDataWriter.init with status_ := .PROCESS, request_ := n } oks = some r ∧
      0 ≤ r.1.count_ ∧ r.1.count_ ≤ 4) ∧
    (0 ≤ w.count_ ∧ w.count_ ≤ 4 ∧ ∀ ok, ∃ r, w.Proceed t ok = some r) := by
  refine ⟨fun ok w1 => CallDataWriter.Proceed_total this ok w1, ?_, ?_, ?_⟩
  · intro ok w1 r m hr hmem
    rcases CallDataWriter.Proceed_cases this ok w1 with
      ⟨-, h1⟩ | ⟨-, m1, hlt, hat, h1⟩ | ⟨-, -, h1⟩ | ⟨-, h1⟩
    · rw [h1] at hr
      cases hr
      simp at hmem
    · rw [h1] at hr
      cases hr
      have hm : m = m1 := by
        by_cases hf : w1.new_responder_created_ = true <;> simpa [hf] using hmem
      subst hm
      exact ⟨hlt, hat⟩
    · rw [h1] at hr
      cases hr
      by_cases hf : w1.new_responder_created_ = true <;> simp [hf] at hmem
    · rw [h1] at hr
      cases hr
      simp at hmem
  · cases oks with
    | nil =>
      refine ⟨_, rfl, le_refl _, ?_⟩
      show (0 : Int) ≤ 4
      decide
    | cons ok oks =>
      obtain ⟨r, hr, hst, -⟩ := CallDataWriter.drive_accepted this n ok oks
      obtain ⟨-, -, h1, h4, -⟩ := hst
      refine ⟨_, hr, ?_, h4⟩
      show 0 ≤ r.1.count_
      omega
  · have hobj := ((ServerImpl.run_inv h).live _ _ hw).2
    refine ⟨?_, ?_, fun ok => CallDataWriter.Proceed_total t ok w⟩
    · rcases hobj.2 with h1 | h1 | h1
      · rw [h1.2.1]
      · have := h1.2.1
        omega
      · rw [h1.2.1]
        decide
    · rcases hobj.2 with h1 | h1 | h1
      · rw [h1.2.1]
        decide
      · exact h1.2.2.1
      · rw [h1.2.1]

/-- C20 after a streaming call with request name `"sasha"` has been accepted and its first
write has completed: the `CallDataWriter` at address 2 has its cursor at 2. -/
theorem C20_cursor_in_range_and_at_never_throws_witness :
    ∃ sv w, ServerImpl.run
        [{ tag := 2, ok := true, name := "sasha" }, { tag := 2, ok := true, name := "" }] =
          .ok sv ∧
      sv.heap 2 = some (.callDataWriter w) ∧ w.count_ = 2 ∧
      (0 ≤ w.count_ ∧ w.count_ ≤ 4 ∧ ∀ ok, ∃ r, w.Proceed 2 ok = some r) :=
  ⟨_, _, rfl, rfl, rfl,
    (C20_cursor_in_range_and_at_never_throws 2 "sasha" [true]
      [{ tag := 2, ok := true, name := "sasha" }, { tag := 2, ok := true, name := "" }]
      _ rfl 2 _ rfl).2.2.2⟩

/-- C16, as stated, fails: two `CallDataWriter` objects, at addresses 1 and 2, that receive
the same request name `"sasha"` build different message sequences. -/
theorem C16_messages_depend_on_identity :
    (({ CallDataWriter.init with status_ := .PROCESS, request_ := "sasha" } :
        CallDataWriter).Proceed 1 true).map (fun r => r.1.messages_) =
      some ["Hellosasha!", "How are you doing?", "How can I assist you today?",
        "I'm a server ID 0x1"] ∧
    (({ CallDataWriter.init with status_ := .PROCESS, request_ := "sasha" } :
        CallDataWriter).Proceed 2 true).map (fun r => r.1.messages_) =
      some ["Hellosasha!", "How are you doing?", "How can I assist you today?",
        "I'm a server ID 0x2"] ∧
    (({ CallDataWriter.init with status_ := .PROCESS, request_ := "sasha" } :
        CallDataWriter).Proceed 1 true).map (fun r => r.1.messages_) ≠
      (({ CallDataWriter.init with status_ := .PROCESS, request_ := "sasha" } :
        CallDataWriter).Proceed 2 true).map (fun r => r.1.messages_) := by
  refine ⟨by decide, by decide, by decide⟩

theorem string_append_left_cancel (s a b : String) (h : s ++ a = s ++ b) : a = b := by
  have h1 := congrArg String.data h
  simp only [String.data_append] at h1
  exact String.ext (List.append_cancel_left h1)

/-- C16, amended: the message sequence a `CallDataWriter` builds is a function of the request
name and of the address of the object.  Two objects that receive the same name build the
same first three messages; the fourth is `"I'm a server ID "` followed by the text of the
object's own address, so the two sequences are equal exactly when the two addresses print
the same. -/
theorem C16_messages_function_of_name_and_address (this1 this2 : Tag) (n : String)
    (ok1 ok2 : Bool) :
    (({ CallDataWriter.init with status_ := .PROCESS, request_ := n } :
        CallDataWriter).Proceed this1 ok1).map (fun r => r.1.messages_) =
      some ["Hello" ++ n ++ "!", "How are you doing?", "How can I assist you today?",
        "I'm a server ID " ++ ptrToString this1] ∧
    (({ CallDataWriter.init with status_ := .PROCESS, request_ := n } :
        CallDataWriter).Proceed this2 ok2).map (fun r => r.1.messages_) =
      some ["Hello" ++ n ++ "!", "How are you doing?", "How can I assist you today?",
        "I'm a server ID " ++ ptrToString this2] ∧
    ((({ CallDataWriter.init with status_ := .PROCESS, request_ := n } :
        CallDataWriter).Proceed this1 ok1).map (fun r => r.1.messages_) =
      (({ CallDataWriter.init with status_ := .PROCESS, request_ := n } :
        CallDataWriter).Proceed this2 ok2).map (fun r => r.1.messages_) ↔
      ptrToString this1 = ptrToString this2) := by
  have e1 := CallDataWriter.first_entry this1 ok1 n
  have e2 := CallDataWriter.first_entry this2 ok2 n
  refine ⟨by rw [e1]; rfl, by rw [e2]; rfl, ?_⟩
  rw [e1, e2]
  simp only [Option.map_some', Option.some.injEq, fourMessages, List.cons.injEq, and_true,
    true_and]
  constructor
  · intro h
    exact string_append_left_cancel _ _ _ h
  · intro h
    rw [h]

/-- `CallDataWriter::Proceed` does not read `ctx_`: replacing the context of the object
changes nothing but the context of the result. -/
theorem CallDataWriter.Proceed_ctx (this : Tag) (ok : Bool) (w : CallDataWriter)
    (c : ServerContext) :
    ({ w with ctx_ := c } : CallDataWriter).Proceed this ok =
      (w.Proceed this ok).map fun r => ({ r.1 with ctx_ := c }, r.2) := by
  rcases CallDataWriter.Proceed_cases this ok w with
    ⟨hs, h⟩ | ⟨hs, m, hlt, hat, h⟩ | ⟨hs, hle, h⟩ | ⟨hs, h⟩
  · rw [h]
    simp [CallDataWriter.Proceed, hs]
  · rw [h]
    have hlt1 : toSizeT ({ w with ctx_ := c } : CallDataWriter).count_ <
        (if ({ w with ctx_ := c } : CallDataWriter).count_ = 0 then
          ({ w with ctx_ := c } : CallDataWriter).InitMessages this
            ({ w with ctx_ := c } : CallDataWriter).request_
         else ({ w with ctx_ := c } : CallDataWriter)).messages_.length := by
      by_cases hc : w.count_ = 0 <;> simpa [hc, CallDataWriter.InitMessages] using hlt
    obtain ⟨m1, hat1, h1⟩ :=
      CallDataWriter.Proceed_write this ok ({ w with ctx_ := c } : CallDataWriter) hs hlt1
    have hm : m1 = m := by
      by_cases hc : w.count_ = 0 <;>
        simp [hc, CallDataWriter.InitMessages] at hat hat1 <;>
        · rw [hat] at hat1
          exact (Option.some.inj hat1).symm
    subst hm
    rw [h1]
    by_cases hc : w.count_ = 0 <;> simp [hc, CallDataWriter.InitMessages]
  · rw [h]
    have hle1 : (if ({ w with ctx_ := c } : CallDataWriter).count_ = 0 then
          ({ w with ctx_ := c } : CallDataWriter).InitMessages this
            ({ w with ctx_ := c } : CallDataWriter).request_
         else ({ w with ctx_ := c } : CallDataWriter)).messages_.length ≤
        toSizeT ({ w with ctx_ := c } : CallDataWriter).count_ := by
      by_cases hc : w.count_ = 0 <;> simpa [hc, CallDataWriter.InitMessages] using hle
    rw [CallDataWriter.Proceed_finish this ok ({ w with ctx_ := c } : CallDataWriter) hs hle1]
    by_cases hc : w.count_ = 0 <;> simp [hc, CallDataWriter.InitMessages]
  · rw [h]
    simp [CallDataWriter.Proceed, hs]

/-- C19, as stated, fails: a `CallDataWriter` whose context reports the call cancelled, with
the cursor at 1 of 4, handed an event in `PROCESS`, writes its second message and stays in
`PROCESS`. -/
theorem C19_cancelled_call_still_writes :
    (({ ctx_ := { cancelled := true }, request_ := "sasha", reply_ := "Hellosasha!",
        status_ := .PROCESS, prefix_ := "Hello", count_ := 1,
        new_responder_created_ := true,
        messages_ := ["Hellosasha!", "How are you doing?", "How can I assist you today?",
          "I'm a server ID 0x8"] } : CallDataWriter).Proceed 8 true).map
      (fun r => (r.1.status_, r.2)) =
        some (.PROCESS, [.Write "How are you doing?" 8]) := by
  decide

/-- C19, amended: a `PROCESS` entry of a `CallDataWriter` does not consult the call context
(the test of `ctx_.IsCancelled()` is commented out): with a context that reports the call
cancelled it does what it does with any other context.  While the cursor is below the end
of the messages it issues the next write, no finish, and stays in `PROCESS`; it moves to
`FINISH`, issuing a single finish with status OK and no write, only when the cursor has
reached the end. -/
theorem C19_process_entry_ignores_cancellation (this : Tag) (ok : Bool)
    (w : CallDataWriter) (c : ServerContext) (hs : w.status_ = .PROCESS)
    (hc : w.ctx_.cancelled = true) :
    ({ w with ctx_ := c } : CallDataWriter).Proceed this ok =
      ((w.Proceed this ok).map fun r => ({ r.1 with ctx_ := c }, r.2)) ∧
    (toSizeT w.count_ <
        (if w.count_ = 0 then w.InitMessages this w.request_ else w).messages_.length →
      ∃ m, (w.Proceed this ok).map (fun r => (r.1.status_, r.2.filter Action.isOp)) =
        some (.PROCESS, [.Write m this])) ∧
    ((if w.count_ = 0 then w.InitMessages this w.request_ else w).messages_.length ≤
        toSizeT w.count_ →
      (w.Proceed this ok).map (fun r => (r.1.status_, r.2.filter Action.isOp)) =
        some (.FINISH, [.FinishWriter .OK this])) := by
  have _ := hc
  refine ⟨CallDataWriter.Proceed_ctx this ok w c, ?_, ?_⟩
  · intro hlt
    obtain ⟨m, -, h⟩ := CallDataWriter.Proceed_write this ok w hs hlt
    refine ⟨m, ?_⟩
    rw [h]
    by_cases hf : w.new_responder_created_ = true <;>
      simp [hf, hs, Action.isOp, Action.tag?]
  · intro hle
    rw [CallDataWriter.Proceed_finish this ok w hs hle]
    by_cases hf : w.new_responder_created_ = true <;>
      simp [hf, Action.isOp, Action.tag?]

/-- C19, amended, at a cancelled call with the cursor at 1 of 4, at address 8. -/
theorem C19_process_entry_ignores_cancellation_witness :
    ∃ m,
      (({ ctx_ := { cancelled := true }, request_ := "sasha", reply_ := "Hellosasha!",
          status_ := .PROCESS, prefix_ := "Hello", count_ := 1,
          new_responder_created_ := true,
          messages_ := ["Hellosasha!", "How are you doing?", "How can I assist you today?",
            "I'm a server ID 0x8"] } : CallDataWriter).Proceed 8 true).map
        (fun r => (r.1.status_, r.2.filter Action.isOp)) =
          some (.PROCESS, [.Write m 8]) :=
  (C19_process_entry_ignores_cancellation 8 true
    { ctx_ := { cancelled := true }, request_ := "sasha", reply_ := "Hellosasha!",
      status_ := .PROCESS, prefix_ := "Hello", count_ := 1,
      new_responder_created_ := true,
      messages_ := ["Hellosasha!", "How are you doing?", "How can I assist you today?",
        "I'm a server ID 0x8"] }
    { cancelled := false } rfl rfl).2.1 (by decide)

/-! ## Phases and release of the call states -/

/-- C12: no `Proceed` moves a call state to an earlier phase: for the server `CallData` and
`CallDataWriter` (order `CREATE < PROCESS < FINISH`) and for the client `RPCClientCall` and
`ReadStreamClientCall` (order `PROCESS < FINISH < DESTROY`), whatever the phase and the
flag, the phase after the call is at least the phase before it. -/
theorem C12_phase_never_decreases (this : Tag) (ok : Bool) (c : CallData)
    (w : CallDataWriter) (rc : RPCClientCall) (sc : ReadStreamClientCall) :
    c.status_.toNat ≤ (c.Proceed this ok).1.status_.toNat ∧
    (∃ r, w.Proceed this ok = some r ∧ w.status_.toNat ≤ r.1.status_.toNat) ∧
    rc.callStatus.toNat ≤ (rc.Proceed this ok).1.callStatus.toNat ∧
    sc.callStatus.toNat ≤ (sc.Proceed this ok).1.callStatus.toNat := by
  refine ⟨?_, ?_, ?_, ?_⟩
  · cases hs : c.status_ <;> simp [CallData.Proceed, hs, CallStatus.toNat]
  · rcases CallDataWriter.Proceed_cases this ok w with
      ⟨hs, h⟩ | ⟨hs, m, -, -, h⟩ | ⟨hs, -, h⟩ | ⟨hs, h⟩
    · exact ⟨_, h, by simp [hs, CallStatus.toNat]⟩
    · exact ⟨_, h, by simp [hs, CallStatus.toNat]⟩
    · exact ⟨_, h, by simp [hs, CallStatus.toNat]⟩
    · exact ⟨_, h, le_refl _⟩
  · by_cases hs : rc.callStatus = .PROCESS <;> simp [RPCClientCall.Proceed, hs]
  · cases ok <;> cases hs : sc.callStatus <;>
      simp [ReadStreamClientCall.Proceed, hs, ClientCallStatus.toNat]

/-- C13, as stated, fails for the client unary call state: the `RPCClientCall` that
`SayHello` creates deletes itself on its first event while in `PROCESS`; it is never in
`FINISH`. -/
theorem C13_rpc_client_call_released_in_process :
    RPCClientCall.init.callStatus = .PROCESS ∧
    RPCClientCall.init.Proceed 101 true =
      (RPCClientCall.init, [.PrintReply "Async RPC Client" "", .Delete 101]) ∧
    (RPCClientCall.init.Proceed 101 true).1.callStatus ≠ .FINISH := by
  refine ⟨rfl, by decide, by decide⟩

/-- C13, amended: the server call states and the client streaming call state delete
themselves in the transition that handles an event delivered in `FINISH`, and in no other.
A `CallData` that has accepted a call is in `FINISH` after its first event and is deleted by
its second; a `CallDataWriter` is in `PROCESS` after each of its first four events, in
`FINISH` after the fifth and deleted by the sixth; whatever the flags, and whatever events
follow.  A `ReadStreamClientCall` moves to `FINISH` on an `ok = false` event.  The client
unary call state `RPCClientCall` never changes phase: it is deleted by the transition that
handles its event in `PROCESS`. -/
theorem C13_released_once_in_finish_except_rpc_client (this : Tag) (n : String)
    (b1 b2 b3 b4 b5 b6 : Bool) (rest : List Bool) :
    (∀ ok (c : CallData), Action.Delete this ∈ (c.Proceed this ok).2 ↔ c.status_ = .FINISH) ∧
    (∀ ok (w : CallDataWriter), ∃ r, w.Proceed this ok = some r ∧
      (Action.Delete this ∈ r.2 ↔ w.status_ = .FINISH)) ∧
    (∀ ok (sc : ReadStreamClientCall),
      ClientAction.Delete this ∈ (sc.Proceed this ok).2 ↔ sc.callStatus = .FINISH) ∧
    CallData.drive this { CallData.init with status_ := .PROCESS, request_ := n } [b1] =
      ({ CallData.init with status_ := .FINISH, request_ := n, reply_ := "Hello" ++ n },
       [.NewCallData, .Finish ("Hello" ++ n) .OK this]) ∧
    CallData.drive this { CallData.init with status_ := .PROCESS, request_ := n }
        (b1 :: b2 :: rest) =
      ({ CallData.init with status_ := .FINISH, request_ := n, reply_ := "Hello" ++ n },
       [.NewCallData, .Finish ("Hello" ++ n) .OK this, .Delete this]) ∧
    ((CallDataWriter.drive this
        { CallDataWriter.init with status_ := .PROCESS, request_ := n }
        [b1, b2, b3, b4]).map fun r => (r.1.status_, r.2)) =
      some (.PROCESS, [.NewCallDataWriter,
        .Write ("Hello" ++ n ++ "!") this, .Write "How are you doing?" this,
        .Write "How can I assist you today?" this,
        .Write ("I'm a server ID " ++ ptrToString this) this]) ∧
    ((CallDataWriter.drive this
        { CallDataWriter.init with status_ := .PROCESS, request_ := n }
        [b1, b2, b3, b4, b5]).map fun r => (r.1.status_, r.2)) =
      some (.FINISH, [.NewCallDataWriter,
        .Write ("Hello" ++ n ++ "!") this, .Write "How are you doing?" this,
        .Write "How can I assist you today?" this,
        .Write ("I'm a server ID " ++ ptrToString this) this, .FinishWriter .OK this]) ∧
    ((CallDataWriter.drive this
        { CallDataWriter.init with status_ := .PROCESS, request_ := n }
        (b1 :: b2 :: b3 :: b4 :: b5 :: b6 :: rest)).map fun r => (r.1.status_, r.2)) =
      some (.FINISH, [.NewCallDataWriter,
        .Write ("Hello" ++ n ++ "!") this, .Write "How are you doing?" this,
        .Write "How can I assist you today?" this,
        .Write ("I'm a server ID " ++ ptrToString this) this, .FinishWriter .OK this,
        .Delete this]) ∧
    (ReadStreamClientCall.init.Proceed this false).1.callStatus = .FINISH ∧
    (∀ ok (rc : RPCClientCall), (rc.Proceed this ok).1.callStatus = rc.callStatus) ∧
    (∀ ok, ClientAction.Delete this ∈ (RPCClientCall.init.Proceed this ok).2) := by
  have t0 : toSizeT 0 = 0 := by decide
  have t1 : toSizeT 1 = 1 := by decide
  have t2 : toSizeT 2 = 2 := by decide
  have t3 : toSizeT 3 = 3 := by decide
  have t4 : toSizeT 4 = 4 := by decide
  have hpfx : CallDataBase.init.prefix_ = "Hello" := rfl
  refine ⟨?_, ?_, ?_, ?_, ?_, ?_, ?_, ?_, ?_, ?_, ?_⟩
  · intro ok c
    cases hs : c.status_ <;> simp [CallData.Proceed, hs]
  · intro ok w
    rcases CallDataWriter.Proceed_cases this ok w with
      ⟨hs, h⟩ | ⟨hs, m, -, -, h⟩ | ⟨hs, -, h⟩ | ⟨hs, h⟩
    · exact ⟨_, h, by simp [hs]⟩
    · refine ⟨_, h, ?_⟩
      by_cases hf : w.new_responder_created_ = true <;> simp [hf, hs]
    · refine ⟨_, h, ?_⟩
      by_cases hf : w.new_responder_created_ = true <;> simp [hf, hs]
    · exact ⟨_, h, by simp [hs]⟩
  · intro ok sc
    cases ok <;> cases hs : sc.callStatus <;>
      simp [ReadStreamClientCall.Proceed, hs, ClientAsyncCall.PrintReply]
  · simp [CallData.drive, CallData.Proceed, CallData.init, hpfx]
  · simp [CallData.drive, CallData.Proceed, CallData.init, hpfx]
  · simp [CallDataWriter.drive, CallDataWriter.Proceed, CallDataWriter.InitMessages,
      CallDataWriter.init, vectorAt, t0, t1, t2, t3, t4, hpfx]
  · simp [CallDataWriter.drive, CallDataWriter.Proceed, CallDataWriter.InitMessages,
      CallDataWriter.init, vectorAt, t0, t1, t2, t3, t4, hpfx]
  · simp [CallDataWriter.drive, CallDataWriter.Proceed, CallDataWriter.InitMessages,
      CallDataWriter.init, vectorAt, t0, t1, t2, t3, t4, hpfx]
  · rfl
  · intro ok rc
    by_cases hs : rc.callStatus = .PROCESS <;> simp [RPCClientCall.Proceed, hs]
  · intro ok
    simp [RPCClientCall.Proceed, RPCClientCall.init, ClientAsyncCall.init]

/-! ## Registration and successor of the unary call state -/

/-- C18, as stated, fails: the `CREATE` to `PROCESS` transition of a `CallData` (the one
its constructor runs) registers the object and spawns no successor. -/
theorem C18_create_transition_spawns_nothing :
    CallData.Proceed 7 true CallData.init =
      ({ CallData.init with status_ := .PROCESS }, [.RequestSayHello 7]) ∧
    Action.NewCallData ∉ (CallData.Proceed 7 true CallData.init).2 := by
  refine ⟨by decide, by decide⟩

/-- C18, amended: the `CREATE` to `PROCESS` transition of a `CallData` registers the object
as acceptor under its own address and does nothing else; the successor is spawned by the
next transition, `PROCESS` to `FINISH`, taken when a call has arrived, as its first effect,
before the finish that carries the reply.  In the server, the successor is registered
before the finish of the busy object is submitted. -/
theorem C18_successor_spawned_on_process_entry (this : Tag) (ok : Bool) (c : CallData) :
    (c.status_ = .CREATE →
      c.Proceed this ok = ({ c with status_ := .PROCESS }, [.RequestSayHello this])) ∧
    (c.status_ = .PROCESS →
      (c.Proceed this ok).1.status_ = .FINISH ∧
      (c.Proceed this ok).2 =
        [.NewCallData, .Finish (c.prefix_ ++ c.request_) .OK this]) ∧
    (∃ sv, ServerImpl.run [{ tag := 1, ok := true, name := "world" }] = .ok sv ∧
      sv.trace = [.RequestSayHello 1, .RequestSayHelloStreamReply 2, .RequestSayHello 3,
        .Finish "Helloworld" .OK 1]) := by
  refine ⟨?_, ?_, ⟨_, rfl, by decide⟩⟩
  · intro hs
    simp [CallData.Proceed, hs]
  · intro hs
    simp [CallData.Proceed, hs]

/-- C18, amended, at the object the constructor builds and at the same object once a call
with request name `"world"` has arrived. -/
theorem C18_successor_spawned_on_process_entry_witness :
    CallData.init.Proceed 7 true =
      ({ CallData.init with status_ := .PROCESS }, [.RequestSayHello 7]) ∧
    (({ CallData.init with status_ := .PROCESS, request_ := "world" } :
        CallData).Proceed 7 true).2 =
      [.NewCallData, .Finish ("Hello" ++ "world") .OK 7] :=
  ⟨(C18_successor_spawned_on_process_entry 7 true CallData.init).1 rfl,
   ((C18_successor_spawned_on_process_entry 7 true
      { CallData.init with status_ := .PROCESS, request_ := "world" }).2.1 rfl).2⟩

/-! ## One outstanding operation per call state -/

theorem ServerImpl.Inv.pending_tag_unique {sv : ServerImpl} (hI : sv.Inv) {a b : Action}
    {t : Tag} (ha : a ∈ sv.pending) (hb : b ∈ sv.pending) (hta : a.tag? = some t)
    (htb : b.tag? = some t) : a = b := by
  obtain ⟨t1, o1, ho1, hw1⟩ := (hI.pend a).1 ha
  obtain ⟨t2, o2, ho2, hw2⟩ := (hI.pend b).1 hb
  have e1 := CallObj.awaits_tag hw1
  have e2 := CallObj.awaits_tag hw2
  rw [hta] at e1
  rw [htb] at e2
  cases e1
  cases e2
  rw [ho1] at ho2
  cases ho2
  rw [hw1] at hw2
  exact Option.some.inj hw2

theorem length_le_one_of_nodup_of_eq {α : Type} {l : List α} (hn : l.Nodup)
    (he : ∀ x ∈ l, ∀ y ∈ l, x = y) : l.length ≤ 1 := by
  cases l with
  | nil => simp
  | cons x l =>
    cases l with
    | nil => simp
    | cons y l =>
      exfalso
      have hxy : x = y := he x (by simp) y (by simp)
      subst hxy
      simp at hn

/-- C14: every `Proceed` of a `CallDataWriter` submits at most one operation of its own (the
registration the constructor of a freshly spawned successor submits is the successor's); in
the server loop a `Proceed` is run only for an event that answers the outstanding operation
of its tag, and a write that is outstanding afterwards and was not before carries that tag;
hence, in every state `HandleRpcs` reaches, at most one operation, and so at most one
write, is outstanding per call object. -/
theorem C14_single_outstanding_write (this : Tag) (ok : Bool) (w : CallDataWriter)
    (es : List Completion) (sv : ServerImpl) (h : ServerImpl.run es = .ok sv) (t : Tag) :
    (∃ r, w.Proceed this ok = some r ∧ (r.2.filter Action.isOp).length ≤ 1) ∧
    (sv.pending.filter fun a => decide (a.tag? = some t)).length ≤ 1 ∧
    (sv.pending.filter fun a => a.isWrite && decide (a.tag? = some t)).length ≤ 1 ∧
    (∀ e sv1, sv.iteration e = .ok sv1 →
      (∃ a, sv.outstanding e.tag = some a) ∧
      ∀ m t1, Action.Write m t1 ∈ sv1.pending →
        Action.Write m t1 ∈ sv.pending ∨ t1 = e.tag) := by
  have hI := ServerImpl.run_inv h
  refine ⟨?_, ?_, ?_, ?_⟩
  · rcases CallDataWriter.Proceed_cases this ok w with
      ⟨-, h1⟩ | ⟨-, m, -, -, h1⟩ | ⟨-, -, h1⟩ | ⟨-, h1⟩
    · exact ⟨_, h1, by simp [Action.isOp, Action.tag?]⟩
    · refine ⟨_, h1, ?_⟩
      by_cases hf : w.new_responder_created_ = true <;>
        simp [hf, Action.isOp, Action.tag?]
    · refine ⟨_, h1, ?_⟩
      by_cases hf : w.new_responder_created_ = true <;>
        simp [hf, Action.isOp, Action.tag?]
    · exact ⟨_, h1, by simp [Action.isOp, Action.tag?]⟩
  · apply length_le_one_of_nodup_of_eq (hI.nodup.filter _)
    intro x hx y hy
    rw [List.mem_filter] at hx hy
    exact hI.pending_tag_unique hx.1 hy.1 (by simpa using hx.2) (by simpa using hy.2)
  · apply length_le_one_of_nodup_of_eq (hI.nodup.filter _)
    intro x hx y hy
    rw [List.mem_filter] at hx hy
    have hx2 := hx.2
    have hy2 := hy.2
    simp only [Bool.and_eq_true, decide_eq_true_eq] at hx2 hy2
    exact hI.pending_tag_unique hx.1 hy.1 hx2.2 hy2.2
  · intro e sv1 hit
    obtain ⟨hok, a, ha⟩ := ServerImpl.iteration_ok hit
    refine ⟨⟨a, ha⟩, ?_⟩
    obtain ⟨o, o2, ho, hw, hshape, -, -⟩ := hI.iteration_shape e hok ha
    rw [hshape] at hit
    cases hit
    intro m t1 hmem
    have hmem1 : Action.Write m t1 ∈ sv.pending.erase a ++
        (((spawnFor a).bind (CallObj.awaits sv.nextAddr)).toList ++
          (o2.bind (CallObj.awaits e.tag)).toList) := hmem
    rw [List.mem_append, mem_stepOps] at hmem1
    rcases hmem1 with h1 | ⟨x, hx, hwx⟩ | ⟨y, -, hwy⟩
    · exact Or.inl (List.mem_of_mem_erase h1)
    · exfalso
      rcases (spawnFor_spec hx sv.nextAddr).2 with ⟨-, hreq, -⟩ | ⟨-, hreq, -⟩ <;>
        · rw [hreq] at hwx
          cases hwx
    · right
      have := CallObj.awaits_tag hwy
      simpa [Action.tag?] using this

/-- C14 after a streaming call with request name `"sasha"` has been accepted: one write of
the `CallDataWriter` at address 2 is outstanding. -/
theorem C14_single_outstanding_write_witness :
    ∃ sv, ServerImpl.run [{ tag := 2, ok := true, name := "sasha" }] = .ok sv ∧
      sv.pending.filter (fun a => a.isWrite && decide (a.tag? = some 2)) =
        [.Write "Hellosasha!" 2] ∧
      (sv.pending.filter fun a => a.isWrite && decide (a.tag? = some 2)).length ≤ 1 :=
  ⟨_, rfl, by decide,
    (C14_single_outstanding_write 2 true CallDataWriter.init
      [{ tag := 2, ok := true, name := "sasha" }] _ rfl 2).2.2.1⟩

/-! ## The event loops -/

theorem GreeterClient.AsyncCompleteRpc_eq_spec (es : List ClientCompletion) :
    ∀ g : GreeterClient, g.AsyncCompleteRpc es = eventLoopSpec GreeterClient.dispatch g es := by
  induction es with
  | nil =>
    intro g
    rfl
  | cons e es ih =>
    intro g
    simp only [GreeterClient.AsyncCompleteRpc, eventLoopSpec, List.foldlM_cons]
    cases hd : g.dispatch e with
    | error f => rfl
    | ok g1 => exact ih g1

theorem ServerImpl.loop_eq_spec (es : List Completion) :
    ∀ sv : ServerImpl, sv.loop es = eventLoopSpec ServerImpl.iteration sv es := by
  induction es with
  | nil =>
    intro sv
    rfl
  | cons e es ih =>
    intro sv
    simp only [ServerImpl.loop, eventLoopSpec, List.foldlM_cons]
    cases hd : sv.iteration e with
    | error f => rfl
    | ok sv1 => exact ih sv1

/-- C11, as stated, fails for the server: `HandleRpcs` does not return when the queue
reports shutdown, it stops at `GPR_ASSERT(cq_->Next(&tag, &ok))`, with no event or after
an event it has handled; and an event with `ok = false` stops it at `GPR_ASSERT(ok)`, the
transition function not being invoked for it. -/
theorem C11_handleRpcs_never_returns :
    ServerImpl.HandleRpcs [] = .nextFailed ∧
    ServerImpl.HandleRpcs [{ tag := 2, ok := true, name := "sasha" }] = .nextFailed ∧
    ServerImpl.HandleRpcs
      [{ tag := 2, ok := true, name := "sasha" }, { tag := 2, ok := false, name := "" }] =
        .notOk := by
  refine ⟨rfl, rfl, rfl⟩

/-- C11, amended: the client loop `AsyncCompleteRpc` is the loop of the specification: for
each pulled event, in pull order, it calls `Proceed` of the call object at the tag with the
flag of the event, and it returns when the queue reports shutdown.  The server loop
`HandleRpcs` does the same for events with `ok = true` only: an event with `ok = false`
stops it without `Proceed` being called, and when the queue reports shutdown it does not
return but stops at `GPR_ASSERT(cq_->Next(&tag, &ok))`. -/
theorem C11_event_loops_dispatch_in_pull_order (g : GreeterClient)
    (ces : List ClientCompletion) (sv : ServerImpl) (es : List Completion) :
    g.AsyncCompleteRpc ces = eventLoopSpec GreeterClient.dispatch g ces ∧
    g.AsyncCompleteRpc [] = .ok g ∧
    (∀ e o, g.heap e.tag = some o →
      g.dispatch e = .ok (((o.store e).Proceed e.tag e.ok).2.foldl GreeterClient.perform
        { g with heap :=
            Function.update g.heap e.tag (some ((o.store e).Proceed e.tag e.ok).1) })) ∧
    sv.loop es = eventLoopSpec ServerImpl.iteration sv es ∧
    (∀ e sv0, sv.next e = .ok sv0 → e.ok = true →
      sv.iteration e = sv0.dispatch e.tag e.ok) ∧
    (∀ e, e.ok = false → ∃ f, sv.iteration e = .error f) ∧
    (∀ sv1, ServerImpl.run es = .ok sv1 → ServerImpl.HandleRpcs es = .nextFailed) ∧
    (∀ f, ServerImpl.run es = .error f → ServerImpl.HandleRpcs es = f) := by
  refine ⟨GreeterClient.AsyncCompleteRpc_eq_spec ces g, rfl, ?_,
    ServerImpl.loop_eq_spec es sv, ?_, ?_, ?_, ?_⟩
  · intro e o ho
    simp only [GreeterClient.dispatch, ho]
  · intro e sv0 hn hok
    simp only [ServerImpl.iteration, hn, hok, if_true]
  · intro e hok
    unfold ServerImpl.iteration
    cases hn : sv.next e with
    | error f => exact ⟨f, rfl⟩
    | ok sv0 =>
      refine ⟨.notOk, ?_⟩
      simp [hok]
  · intro sv1 hrun
    simp only [ServerImpl.HandleRpcs, hrun]
  · intro f hrun
    simp only [ServerImpl.HandleRpcs, hrun]

/-- C11, amended, for the client with a streaming call at address 101 whose stream ends at
once, and for the server with the first event of a unary call. -/
theorem C11_event_loops_dispatch_in_pull_order_witness :
    (∃ g1, ((GreeterClient.init 100).SayHelloAndListenToGreeter "sasha").AsyncCompleteRpc
        (streamEvents 101 []) = .ok g1 ∧
      g1.trace.filter ClientAction.isOp =
        [.StartCallTagged 101 101, .Finish 101 100, .Read 101 101, .Finish 101 101]) ∧
    (∃ sv0, ServerImpl.started.next { tag := 1, ok := true, name := "world" } = .ok sv0 ∧
      ServerImpl.started.iteration { tag := 1, ok := true, name := "world" } =
        sv0.dispatch 1 true) ∧
    ServerImpl.HandleRpcs [{ tag := 1, ok := true, name := "world" }] = .nextFailed :=
  ⟨⟨_, rfl, by decide⟩,
   ⟨_, rfl, (C11_event_loops_dispatch_in_pull_order (GreeterClient.init 100) []
      ServerImpl.started []).2.2.2.2.1 { tag := 1, ok := true, name := "world" } _ rfl rfl⟩,
   (C11_event_loops_dispatch_in_pull_order (GreeterClient.init 100) []
      ServerImpl.started [{ tag := 1, ok := true, name := "world" }]).2.2.2.2.2.2.1 _ rfl⟩

end Greeter
